import Mathlib

/-!
# t1ha0: the ARM64 AES+NEON variant and the self-check tables

A shallow embedding of `src/t1ha0_arm64neon_a.h` and `src/t1ha0_selfcheck.c`.

* 64-bit machine words are natural numbers, reduced `% 2 ^ 64` wherever the C arithmetic wraps.
* A `__m128i` register is a pair of 64-bit lanes.
* Caller memory is the list of the readable bytes behind `data`; a pointer into it is a byte
  offset from `data`.  Every load is bounds-checked and logged, so a run is either `none`
  (a load left the readable bytes) or a value together with the loads performed, in order.
-/

namespace T1ha

/-! ## Reads of caller memory -/

/-- One load performed by the code: byte offset from `data` and width in bytes. -/
structure Access where
  off : Nat
  width : Nat
deriving DecidableEq, Repr

/-- A computation that reads caller memory: `none` when a load leaves the readable bytes (or a
loop exhausts its fuel), otherwise the result and the loads performed, in program order. -/
def Rd (α : Type) : Type := Option (α × List Access)

/-- A computation that performs no load. -/
def Rd.pure {α : Type} (a : α) : Rd α := some (a, [])

/-- Sequencing: the loads of the first computation, then those of the second. -/
def Rd.bind {α β : Type} (m : Rd α) (f : α → Rd β) : Rd β :=
  match m with
  | none => none
  | some (a, l) =>
    match f a with
    | none => none
    | some (b, l') => some (b, l ++ l')

instance : Monad Rd where
  pure := Rd.pure
  bind := Rd.bind

/-- The value computed, when the run did not fail. -/
def Rd.value {α : Type} (m : Rd α) : Option α := Option.map Prod.fst m

/-- The loads performed, when the run did not fail. -/
def Rd.log {α : Type} (m : Rd α) : Option (List Access) := Option.map Prod.snd m

/-- Little-endian value of a byte string. -/
def le_bytes : List Nat → Nat
  | [] => 0
  | b :: bs => b % 256 + 256 * le_bytes bs

/-- The `n` bytes at offset `off`. -/
def bytes_at (data : List Nat) (off n : Nat) : List Nat := (data.drop off).take n

/-- Bounds-checked load of `n` bytes at offset `off`. -/
def read_bytes (data : List Nat) (off n : Nat) : Rd (List Nat) :=
  if off + n ≤ data.length then some (bytes_at data off n, [⟨off, n⟩]) else none

/-- The loads of `n` consecutive 16-byte blocks, the first one being block `k` (offset `16 * k`). -/
def block_log (k n : Nat) : List Access := (List.range' k n).map fun i => ⟨16 * i, 16⟩

/-- The loads of the tail switch entered at offset `v` with `r` remaining bytes: one 8-byte load
per complete word before the last one, then the last word, of `(r - 1) % 8 + 1` bytes. -/
def tail_log (v r : Nat) : List Access :=
  if r = 0 then []
  else (List.range ((r - 1) / 8)).map (fun k => ⟨v + 8 * k, 8⟩)
    ++ [⟨v + 8 * ((r - 1) / 8), (r - 1) % 8 + 1⟩]

/-! ## `t1ha_bits.h` -/

/-- Modelled from the spec: `t1ha_bits.h` is not among the sources; `prime_0` is one of the odd
64-bit design constants of section 4.1.  The spec does not print their values; the values here
are the ones under which the model reproduces the reference digests of `t1ha0_selfcheck.c`. -/
def prime_0 : Nat := 0xEC99BF0D8372CAAB
/-- Modelled from the spec: `t1ha_bits.h` is not among the sources; design constant `prime_1`. -/
def prime_1 : Nat := 0x82434FE90EDCEF39
/-- Modelled from the spec: `t1ha_bits.h` is not among the sources; design constant `prime_2`. -/
def prime_2 : Nat := 0xD4F06DB99D67BE4B
/-- Modelled from the spec: `t1ha_bits.h` is not among the sources; design constant `prime_3`. -/
def prime_3 : Nat := 0xBD9CACC22C6E9571
/-- Modelled from the spec: `t1ha_bits.h` is not among the sources; design constant `prime_4`. -/
def prime_4 : Nat := 0x9C06FAF4D023E3AB
/-- Modelled from the spec: `t1ha_bits.h` is not among the sources; design constant `prime_5`. -/
def prime_5 : Nat := 0xC060724A8424F345
/-- Modelled from the spec: `t1ha_bits.h` is not among the sources; design constant `prime_6`. -/
def prime_6 : Nat := 0xCB5AF53AE3AAAC31

/-- Modelled from the spec: `rot64` of `t1ha_bits.h` (not among the sources), the 64-bit
rotation used by the mixing steps of section 4.1: `(v >> s) | (v << (64 - s))`. -/
def rot64 (v s : Nat) : Nat := ((v >>> s) ||| (v <<< (64 - s))) % 2 ^ 64

/-- Modelled from the spec: `mul_64x64_128` of `t1ha_bits.h` (not among the sources), the full
128-bit product of two 64-bit words as (low half, high half). -/
def mul_64x64_128 (a b : Nat) : Nat × Nat := ((a * b) % 2 ^ 64, ((a * b) / 2 ^ 64) % 2 ^ 64)

/-- Modelled from the spec: `mux64` of `t1ha_bits.h` (not among the sources): xor of the high and
low halves of the full 128-bit product. -/
def mux64 (v prime : Nat) : Nat :=
  let lh := mul_64x64_128 v prime
  lh.1 ^^^ lh.2

/-- Modelled from the spec: `final64` of `t1ha_bits.h` (not among the sources): the finishing
transform `final(a, b)` of section 4.1, two multiplications by dedicated primes and a `mux64`.
The exact transform is fixed by the reference digests of `t1ha0_selfcheck.c`. -/
def final64 (a b : Nat) : Nat :=
  let x := ((a + rot64 b 41) * prime_0) % 2 ^ 64
  let y := ((rot64 a 23 + b) * prime_6) % 2 ^ 64
  mux64 (x ^^^ y) prime_5

/-- Modelled from the spec: `mixup64` of `t1ha_bits.h` (not among the sources): the mix step
`mix(&state1, &state2, data_word, prime)` of section 4.1, a 64x64 -> 128 bit multiplication by
the prime whose halves are folded into the two states:
`*a ^= low((*b + v) * prime); *b += high((*b + v) * prime)`.  The result is the new pair
`(*a, *b)`.  The exact step is fixed by the reference digests of `t1ha0_selfcheck.c`. -/
def mixup64 (a b v prime : Nat) : Nat × Nat :=
  let lh := mul_64x64_128 ((b + v) % 2 ^ 64) prime
  (a ^^^ lh.1, (b + lh.2) % 2 ^ 64)

/-- Modelled from the spec: `fetch64_le_unaligned` of `t1ha_bits.h` (not among the sources):
`fetch64(ptr)` of section 4.2, the 8 bytes at `v` as a little-endian word. -/
def fetch64_le_unaligned (data : List Nat) (v : Nat) : Rd Nat := do
  let bs ← read_bytes data v 8
  pure (le_bytes bs)

/-- Modelled from the spec: `tail64_le_unaligned` of `t1ha_bits.h` (not among the sources):
`tail64(ptr, len)` of section 4.2, the last word as a little-endian value, zero-filled, read from
exactly the bytes it is made of.  The caller passes the whole remaining count (1..32), so the
reader can only go by its low three bits; a multiple of 8 selects a complete 8-byte word.  Both
are what the reference digests of `t1ha0_selfcheck.c` for the lengths 8..32 require. -/
def tail64_le_unaligned (data : List Nat) (v tail : Nat) : Rd Nat := do
  let bs ← read_bytes data v (if tail &&& 7 = 0 then 8 else tail &&& 7)
  pure (le_bytes bs)

/-! ## The `sse2neon.h` intrinsics used by the variant

`sse2neon.h` is not among the sources.  The intrinsics are modelled after the x86 instructions
they stand for; the AES round steps follow FIPS-197. -/

/-- A `__m128i` register as two 64-bit lanes. -/
structure M128 where
  lo : Nat
  hi : Nat
deriving DecidableEq, Repr

/-- Modelled from the spec: intrinsic `_mm_set_epi64x(hi, lo)` of `sse2neon.h` (not among the
sources). -/
def _mm_set_epi64x (hi lo : Nat) : M128 := ⟨lo % 2 ^ 64, hi % 2 ^ 64⟩

/-- Modelled from the spec: intrinsic `_mm_extract_epi64(x, i)` of `sse2neon.h` (not among the
sources): lane `i`, lane 0 being the low one. -/
def _mm_extract_epi64 (x : M128) (i : Nat) : Nat := if i = 0 then x.lo else x.hi

/-- Modelled from the spec: intrinsic `_mm_xor_si128` of `sse2neon.h` (not among the sources). -/
def _mm_xor_si128 (x y : M128) : M128 := ⟨x.lo ^^^ y.lo, x.hi ^^^ y.hi⟩

/-- Modelled from the spec: intrinsic `_mm_add_epi64` of `sse2neon.h` (not among the sources):
lane-wise wrapping addition. -/
def _mm_add_epi64 (x y : M128) : M128 := ⟨(x.lo + y.lo) % 2 ^ 64, (x.hi + y.hi) % 2 ^ 64⟩

/-- Modelled from the spec: intrinsic `_mm_sub_epi64` of `sse2neon.h` (not among the sources):
lane-wise wrapping subtraction. -/
def _mm_sub_epi64 (x y : M128) : M128 :=
  ⟨(x.lo + (2 ^ 64 - y.lo % 2 ^ 64)) % 2 ^ 64, (x.hi + (2 ^ 64 - y.hi % 2 ^ 64)) % 2 ^ 64⟩

/-- A register from its 16 bytes, byte 0 being the least significant byte of the low lane. -/
def M128.ofBytes (bs : List Nat) : M128 := ⟨le_bytes (bs.take 8), le_bytes (bs.drop 8)⟩

/-- Modelled from the spec: intrinsic `_mm_loadu_si128` of `sse2neon.h` (not among the sources):
unaligned 16-byte load. -/
def _mm_loadu_si128 (data : List Nat) (v : Nat) : Rd M128 := do
  let bs ← read_bytes data v 16
  pure (M128.ofBytes bs)

/-- Byte `i` (0..15) of a register, byte 0 being the least significant. -/
def M128.byte (x : M128) (i : Nat) : Nat :=
  if i < 8 then (x.lo >>> (8 * i)) % 256 else (x.hi >>> (8 * (i - 8))) % 256

/-- The AES S-box (FIPS-197, figure 7). -/
def SBOX : List Nat := [
  0x63, 0x7C, 0x77, 0x7B, 0xF2, 0x6B, 0x6F, 0xC5, 0x30, 0x01, 0x67, 0x2B, 0xFE, 0xD7, 0xAB, 0x76,
  0xCA, 0x82, 0xC9, 0x7D, 0xFA, 0x59, 0x47, 0xF0, 0xAD, 0xD4, 0xA2, 0xAF, 0x9C, 0xA4, 0x72, 0xC0,
  0xB7, 0xFD, 0x93, 0x26, 0x36, 0x3F, 0xF7, 0xCC, 0x34, 0xA5, 0xE5, 0xF1, 0x71, 0xD8, 0x31, 0x15,
  0x04, 0xC7, 0x23, 0xC3, 0x18, 0x96, 0x05, 0x9A, 0x07, 0x12, 0x80, 0xE2, 0xEB, 0x27, 0xB2, 0x75,
  0x09, 0x83, 0x2C, 0x1A, 0x1B, 0x6E, 0x5A, 0xA0, 0x52, 0x3B, 0xD6, 0xB3, 0x29, 0xE3, 0x2F, 0x84,
  0x53, 0xD1, 0x00, 0xED, 0x20, 0xFC, 0xB1, 0x5B, 0x6A, 0xCB, 0xBE, 0x39, 0x4A, 0x4C, 0x58, 0xCF,
  0xD0, 0xEF, 0xAA, 0xFB, 0x43, 0x4D, 0x33, 0x85, 0x45, 0xF9, 0x02, 0x7F, 0x50, 0x3C, 0x9F, 0xA8,
  0x51, 0xA3, 0x40, 0x8F, 0x92, 0x9D, 0x38, 0xF5, 0xBC, 0xB6, 0xDA, 0x21, 0x10, 0xFF, 0xF3, 0xD2,
  0xCD, 0x0C, 0x13, 0xEC, 0x5F, 0x97, 0x44, 0x17, 0xC4, 0xA7, 0x7E, 0x3D, 0x64, 0x5D, 0x19, 0x73,
  0x60, 0x81, 0x4F, 0xDC, 0x22, 0x2A, 0x90, 0x88, 0x46, 0xEE, 0xB8, 0x14, 0xDE, 0x5E, 0x0B, 0xDB,
  0xE0, 0x32, 0x3A, 0x0A, 0x49, 0x06, 0x24, 0x5C, 0xC2, 0xD3, 0xAC, 0x62, 0x91, 0x95, 0xE4, 0x79,
  0xE7, 0xC8, 0x37, 0x6D, 0x8D, 0xD5, 0x4E, 0xA9, 0x6C, 0x56, 0xF4, 0xEA, 0x65, 0x7A, 0xAE, 0x08,
  0xBA, 0x78, 0x25, 0x2E, 0x1C, 0xA6, 0xB4, 0xC6, 0xE8, 0xDD, 0x74, 0x1F, 0x4B, 0xBD, 0x8B, 0x8A,
  0x70, 0x3E, 0xB5, 0x66, 0x48, 0x03, 0xF6, 0x0E, 0x61, 0x35, 0x57, 0xB9, 0x86, 0xC1, 0x1D, 0x9E,
  0xE1, 0xF8, 0x98, 0x11, 0x69, 0xD9, 0x8E, 0x94, 0x9B, 0x1E, 0x87, 0xE9, 0xCE, 0x55, 0x28, 0xDF,
  0x8C, 0xA1, 0x89, 0x0D, 0xBF, 0xE6, 0x42, 0x68, 0x41, 0x99, 0x2D, 0x0F, 0xB0, 0x54, 0xBB, 0x16]

/-- The inverse AES S-box (FIPS-197, figure 14). -/
def INV_SBOX : List Nat := [
  0x52, 0x09, 0x6A, 0xD5, 0x30, 0x36, 0xA5, 0x38, 0xBF, 0x40, 0xA3, 0x9E, 0x81, 0xF3, 0xD7, 0xFB,
  0x7C, 0xE3, 0x39, 0x82, 0x9B, 0x2F, 0xFF, 0x87, 0x34, 0x8E, 0x43, 0x44, 0xC4, 0xDE, 0xE9, 0xCB,
  0x54, 0x7B, 0x94, 0x32, 0xA6, 0xC2, 0x23, 0x3D, 0xEE, 0x4C, 0x95, 0x0B, 0x42, 0xFA, 0xC3, 0x4E,
  0x08, 0x2E, 0xA1, 0x66, 0x28, 0xD9, 0x24, 0xB2, 0x76, 0x5B, 0xA2, 0x49, 0x6D, 0x8B, 0xD1, 0x25,
  0x72, 0xF8, 0xF6, 0x64, 0x86, 0x68, 0x98, 0x16, 0xD4, 0xA4, 0x5C, 0xCC, 0x5D, 0x65, 0xB6, 0x92,
  0x6C, 0x70, 0x48, 0x50, 0xFD, 0xED, 0xB9, 0xDA, 0x5E, 0x15, 0x46, 0x57, 0xA7, 0x8D, 0x9D, 0x84,
  0x90, 0xD8, 0xAB, 0x00, 0x8C, 0xBC, 0xD3, 0x0A, 0xF7, 0xE4, 0x58, 0x05, 0xB8, 0xB3, 0x45, 0x06,
  0xD0, 0x2C, 0x1E, 0x8F, 0xCA, 0x3F, 0x0F, 0x02, 0xC1, 0xAF, 0xBD, 0x03, 0x01, 0x13, 0x8A, 0x6B,
  0x3A, 0x91, 0x11, 0x41, 0x4F, 0x67, 0xDC, 0xEA, 0x97, 0xF2, 0xCF, 0xCE, 0xF0, 0xB4, 0xE6, 0x73,
  0x96, 0xAC, 0x74, 0x22, 0xE7, 0xAD, 0x35, 0x85, 0xE2, 0xF9, 0x37, 0xE8, 0x1C, 0x75, 0xDF, 0x6E,
  0x47, 0xF1, 0x1A, 0x71, 0x1D, 0x29, 0xC5, 0x89, 0x6F, 0xB7, 0x62, 0x0E, 0xAA, 0x18, 0xBE, 0x1B,
  0xFC, 0x56, 0x3E, 0x4B, 0xC6, 0xD2, 0x79, 0x20, 0x9A, 0xDB, 0xC0, 0xFE, 0x78, 0xCD, 0x5A, 0xF4,
  0x1F, 0xDD, 0xA8, 0x33, 0x88, 0x07, 0xC7, 0x31, 0xB1, 0x12, 0x10, 0x59, 0x27, 0x80, 0xEC, 0x5F,
  0x60, 0x51, 0x7F, 0xA9, 0x19, 0xB5, 0x4A, 0x0D, 0x2D, 0xE5, 0x7A, 0x9F, 0x93, 0xC9, 0x9C, 0xEF,
  0xA0, 0xE0, 0x3B, 0x4D, 0xAE, 0x2A, 0xF5, 0xB0, 0xC8, 0xEB, 0xBB, 0x3C, 0x83, 0x53, 0x99, 0x61,
  0x17, 0x2B, 0x04, 0x7E, 0xBA, 0x77, 0xD6, 0x26, 0xE1, 0x69, 0x14, 0x63, 0x55, 0x21, 0x0C, 0x7D]

/-- Multiplication by `x` in GF(2^8) modulo `x^8 + x^4 + x^3 + x + 1`. -/
def xtime (b : Nat) : Nat := if b < 128 then 2 * b else ((2 * b) ^^^ 0x11B) % 256

/-- MixColumns on one column. -/
def mix_column (a0 a1 a2 a3 : Nat) : List Nat :=
  [xtime a0 ^^^ (xtime a1 ^^^ a1) ^^^ a2 ^^^ a3,
   a0 ^^^ xtime a1 ^^^ (xtime a2 ^^^ a2) ^^^ a3,
   a0 ^^^ a1 ^^^ xtime a2 ^^^ (xtime a3 ^^^ a3),
   (xtime a0 ^^^ a0) ^^^ a1 ^^^ a2 ^^^ xtime a3]

/-- Multiplication by 9, 11, 13 and 14 in GF(2^8). -/
def mul9 (b : Nat) : Nat := xtime (xtime (xtime b)) ^^^ b
/-- Multiplication by 11 in GF(2^8). -/
def mul11 (b : Nat) : Nat := xtime (xtime (xtime b)) ^^^ xtime b ^^^ b
/-- Multiplication by 13 in GF(2^8). -/
def mul13 (b : Nat) : Nat := xtime (xtime (xtime b)) ^^^ xtime (xtime b) ^^^ b
/-- Multiplication by 14 in GF(2^8). -/
def mul14 (b : Nat) : Nat := xtime (xtime (xtime b)) ^^^ xtime (xtime b) ^^^ xtime b

/-- InvMixColumns on one column. -/
def inv_mix_column (a0 a1 a2 a3 : Nat) : List Nat :=
  [mul14 a0 ^^^ mul11 a1 ^^^ mul13 a2 ^^^ mul9 a3,
   mul9 a0 ^^^ mul14 a1 ^^^ mul11 a2 ^^^ mul13 a3,
   mul13 a0 ^^^ mul9 a1 ^^^ mul14 a2 ^^^ mul11 a3,
   mul11 a0 ^^^ mul13 a1 ^^^ mul9 a2 ^^^ mul14 a3]

/-- SubBytes after ShiftRows: state byte `4 * c + r` comes from column `(c + r) % 4`, row `r`. -/
def sub_shift (x : M128) (c r : Nat) : Nat := SBOX.getD (x.byte (4 * ((c + r) % 4) + r)) 0

/-- InvSubBytes after InvShiftRows: byte `4 * c + r` comes from column `(c - r) % 4`, row `r`. -/
def inv_sub_shift (x : M128) (c r : Nat) : Nat :=
  INV_SBOX.getD (x.byte (4 * ((c + 4 - r) % 4) + r)) 0

/-- Modelled from the spec: intrinsic `_mm_aesenc_si128(a, key)` of `sse2neon.h` (not among the
sources), the AES round function of section 4.1: one encryption round, ShiftRows, SubBytes,
MixColumns, then xor with the round key. -/
def _mm_aesenc_si128 (a key : M128) : M128 :=
  let col := fun c => mix_column (sub_shift a c 0) (sub_shift a c 1) (sub_shift a c 2) (sub_shift a c 3)
  _mm_xor_si128 (M128.ofBytes (col 0 ++ col 1 ++ col 2 ++ col 3)) key

/-- Modelled from the spec: intrinsic `_mm_aesdec_si128(a, key)` of `sse2neon.h` (not among the
sources): one AES decryption round, InvShiftRows, InvSubBytes, InvMixColumns, then xor with the
round key. -/
def _mm_aesdec_si128 (a key : M128) : M128 :=
  let col := fun c =>
    inv_mix_column (inv_sub_shift a c 0) (inv_sub_shift a c 1) (inv_sub_shift a c 2) (inv_sub_shift a c 3)
  _mm_xor_si128 (M128.ofBytes (col 0 ++ col 1 ++ col 2 ++ col 3)) key

/-! ## `t1ha0_arm64neon_a.h` -/

/-- The mixing of one 128-byte block (lines 74-83): the new `(x, y)` from the eight 16-byte
loads `v0 .. v7` and the old `(x, y)`. -/
def bulk_block (v0 v1 v2 v3 v4 v5 v6 v7 x y : M128) : M128 × M128 :=
  let v0y := _mm_aesenc_si128 v0 y
  let v2x6 := _mm_aesenc_si128 v2 (_mm_xor_si128 x v6)
  let v45_67 := _mm_xor_si128 (_mm_aesenc_si128 v4 v5) (_mm_add_epi64 v6 v7)
  let v0y7_1 := _mm_aesdec_si128 (_mm_sub_epi64 v7 v0y) v1
  let v2x6_3 := _mm_aesenc_si128 v2x6 v3
  let x1 := _mm_aesenc_si128 v45_67 (_mm_add_epi64 x y)
  let y1 := _mm_aesenc_si128 v2x6_3 (_mm_xor_si128 v0y7_1 v5)
  (x1, y1)

/-- The 128-byte block loop `while (v < detent)` of lines 64-85, with `detent = data + len - 127`;
`v` is the byte offset of the read pointer from `data`, and the comparison of the two pointers is
the comparison of their offsets as integers (`len - 127` is negative for `len < 127`).  Each unit
of fuel pays for one test of the loop condition; running out of fuel is a failure. -/
def bulk_loop (data : List Nat) (len : Nat) : Nat → Nat → M128 → M128 → Rd (Nat × M128 × M128)
  | 0, _, _, _ => none
  | fuel + 1, v, x, y =>
    if (v : Int) < (len : Int) - 127 then do
      let v0 ← _mm_loadu_si128 data (v + 16 * 0)
      let v1 ← _mm_loadu_si128 data (v + 16 * 1)
      let v2 ← _mm_loadu_si128 data (v + 16 * 2)
      let v3 ← _mm_loadu_si128 data (v + 16 * 3)
      let v4 ← _mm_loadu_si128 data (v + 16 * 4)
      let v5 ← _mm_loadu_si128 data (v + 16 * 5)
      let v6 ← _mm_loadu_si128 data (v + 16 * 6)
      let v7 ← _mm_loadu_si128 data (v + 16 * 7)
      let xy := bulk_block v0 v1 v2 v3 v4 v5 v6 v7 x y
      bulk_loop data len fuel (v + 16 * 8) xy.1 xy.2
    else pure (v, x, y)

/-- The sub-block `if (len & 64)` of lines 87-97. -/
def bulk_64 (data : List Nat) (len v : Nat) (x y : M128) : Rd (Nat × M128 × M128) :=
  if len &&& 64 ≠ 0 then do
    let l0 ← _mm_loadu_si128 data v
    let v0y := _mm_add_epi64 y l0
    let l1 ← _mm_loadu_si128 data (v + 16)
    let v1x := _mm_sub_epi64 x l1
    let x := _mm_aesdec_si128 x v0y
    let y := _mm_aesdec_si128 y v1x
    let l2 ← _mm_loadu_si128 data (v + 32)
    let v2y := _mm_add_epi64 y l2
    let l3 ← _mm_loadu_si128 data (v + 48)
    let v3x := _mm_sub_epi64 x l3
    let x := _mm_aesdec_si128 x v2y
    let y := _mm_aesdec_si128 y v3x
    pure (v + 64, x, y)
  else pure (v, x, y)

/-- The sub-block `if (len & 32)` of lines 99-104. -/
def bulk_32 (data : List Nat) (len v : Nat) (x y : M128) : Rd (Nat × M128 × M128) :=
  if len &&& 32 ≠ 0 then do
    let l0 ← _mm_loadu_si128 data v
    let v0y := _mm_add_epi64 y l0
    let l1 ← _mm_loadu_si128 data (v + 16)
    let v1x := _mm_sub_epi64 x l1
    let x := _mm_aesdec_si128 x v0y
    let y := _mm_aesdec_si128 y v1x
    pure (v + 32, x, y)
  else pure (v, x, y)

/-- The sub-block `if (len & 16)` of lines 106-109. -/
def bulk_16 (data : List Nat) (len v : Nat) (x y : M128) : Rd (Nat × M128 × M128) :=
  if len &&& 16 ≠ 0 then do
    let y := _mm_add_epi64 x y
    let l0 ← _mm_loadu_si128 data v
    let x := _mm_aesdec_si128 x l0
    pure (v + 16, x, y)
  else pure (v, x, y)

/-- The fold of line 111: `x = add(aesdec(x, aesenc(y, x)), y)`. -/
def bulk_fold (x y : M128) : M128 :=
  _mm_add_epi64 (_mm_aesdec_si128 x (_mm_aesenc_si128 y x)) y

/-- The wide-accumulator phase, the body of `if (len > 32)` (lines 57-115).  The result is the
new `(data, len, a, b)`, `data` as a byte offset from the original pointer.  The loop is given
`len + 1` units of fuel, more than it can use. -/
def bulk (data : List Nat) (len a b : Nat) : Rd (Nat × Nat × Nat × Nat) := do
  let x := _mm_set_epi64x a b
  let y := _mm_aesenc_si128 x (_mm_set_epi64x prime_5 prime_6)
  let (v, x, y) ← bulk_loop data len (len + 1) 0 x y
  let (v, x, y) ← bulk_64 data len v x y
  let (v, x, y) ← bulk_32 data len v x y
  let (v, x, y) ← bulk_16 data len v x y
  let x := bulk_fold x y
  pure (v, len &&& 15, _mm_extract_epi64 x 0, _mm_extract_epi64 x 1)

/-- Label `case 0` of the tail switch (line 154). -/
def tail_case_0 (a b : Nat) : Rd Nat := pure (final64 a b)

/-- Labels `case 8` .. `case 1` (line 151), falling through to `case 0`. -/
def tail_case_8 (data : List Nat) (v len a b : Nat) : Rd Nat := do
  let w ← tail64_le_unaligned data v len
  let ba := mixup64 b a w prime_1
  tail_case_0 ba.2 ba.1

/-- Labels `case 16` .. `case 9` (line 141), falling through to `case 8`. -/
def tail_case_16 (data : List Nat) (v len a b : Nat) : Rd Nat := do
  let w ← fetch64_le_unaligned data v
  let ab := mixup64 a b w prime_2
  tail_case_8 data (v + 8) len ab.1 ab.2

/-- Labels `case 24` .. `case 17` (line 131), falling through to `case 16`. -/
def tail_case_24 (data : List Nat) (v len a b : Nat) : Rd Nat := do
  let w ← fetch64_le_unaligned data v
  let ba := mixup64 b a w prime_3
  tail_case_16 data (v + 8) len ba.2 ba.1

/-- Label `default` (line 121), falling through to `case 24`. -/
def tail_default (data : List Nat) (v len a b : Nat) : Rd Nat := do
  let w ← fetch64_le_unaligned data v
  let ab := mixup64 a b w prime_4
  tail_case_24 data (v + 8) len ab.1 ab.2

/-- The `switch (len)` of lines 118-155; `v` is the byte offset of `data` at that point. -/
def tail_switch (data : List Nat) (v len a b : Nat) : Rd Nat :=
  if len = 0 then tail_case_0 a b
  else if 1 ≤ len ∧ len ≤ 8 then tail_case_8 data v len a b
  else if 9 ≤ len ∧ len ≤ 16 then tail_case_16 data v len a b
  else if 17 ≤ len ∧ len ≤ 24 then tail_case_24 data v len a b
  else tail_default data v len a b

/-- Function `t1ha0_arm64aes_neon(data, len, seed)` (lines 52-156). -/
def t1ha0_arm64aes_neon (data : List Nat) (len seed : Nat) : Rd Nat := do
  let a := seed
  let b := len
  let (v, len, a, b) ← if len > 32 then bulk data len a b else pure (0, len, a, b)
  tail_switch data v len a b

/-! ## `t1ha0_selfcheck.c` -/

/-- Table `t1ha_refval_32le` (lines 51-72). -/
def t1ha_refval_32le : List Nat := [
  0,
  0xC92229C10FAEA50E, 0x3DF1354B0DFDC443, 0x968F016D60417BB3, 0x85AAFB50C6DA770F,
  0x66CCE3BB6842C7D6, 0xDDAA39C11537C226, 0x35958D281F0C9C8C, 0x8C5D64B091DE608E,
  0x4094DF680D39786B, 0x1014F4AA2A2EDF4D, 0x39D21891615AA310, 0x7EF51F67C398C7C4,
  0x06163990DDBF319D, 0xE229CAA00C8D6F3F, 0xD2240B4B0D54E0F5, 0xEA2E7E905DDEAF94,
  0x8D4F8A887183A5CE, 0x44337F9A63C5820C, 0x94938D1E86A9B797, 0x96E9CABA5CA210CC,
  0x6EFBB9CC9E8F7708, 0x3D12EA0282FB8BBC, 0x5DA781EE205A2C48, 0xFA4A51A12677FE12,
  0x81D5F04E20660B28, 0x57258D043BCD3841, 0x5C9BEB62059C1ED2, 0x57A02162F9034B33,
  0xBA2A13E457CE19B8, 0xE593263BF9451F3A, 0x0BC1175539606BC5, 0xA3E2929E9C5F289F,
  0x86BDBD06835E35F7, 0xA180950AB48BAADC, 0x7812C994D9924028, 0x308366011415F46B,
  0x77FE9A9991C5F959, 0x925C340B70B0B1E3, 0xCD9C5BA4C41E2E10, 0x7CC4E7758B94CD93,
  0x898B235962EA4625, 0xD7E3E5BF22893286, 0x396F4CDD33056C64, 0x740AB2E32F17CD9F,
  0x60D12FF9CD15B321, 0xBEE3A6C9903A81D8, 0xB47040913B33C35E, 0x19EE8C2ACC013CFF,
  0x5DEC94C5783B55C4, 0x78DC122D562C5F1D, 0x6520F008DA1C181E, 0x77CAF155A36EBF7C,
  0x0A09E02BDB883CA6, 0xFD5D9ADA7E3FB895, 0xC6F5FDD9EEAB83B5, 0x84589BB29F52A92A,
  0x9B2517F13F8E9814, 0x6F752AF6A52E31EC, 0x8E717799E324CE8A, 0x84D90AEF39262D58,
  0x79C27B13FC28944D, 0xE6D6DF6438E0044A, 0x51B603E400D79CA4, 0x6A902B28C588B390,
  0x8D7F8DE9E6CB1D83, 0xCF1A4DC11CA7F044, 0xEF02E43C366786F1, 0x89915BCDBCFBE30F,
  0x5928B306F1A9CC7F, 0xA8B59092996851C5, 0x22050A20427E8B25, 0x6E6D64018941E7EE,
  0x9798C898B81AE846, 0x80EF218CDC30124A, 0xFCE45E60D55B0284, 0x4010E735D3147C35,
  0xEB647D999FD8DC7E, 0xD3544DCAB14FE907, 0xB588B27D8438700C, 0xA49EBFC43E057A4C
]

/-- Table `t1ha_refval_32be` (lines 74-95). -/
def t1ha_refval_32be : List Nat := [
  0,
  0xC92229C10FAEA50E, 0x0FE212630DD87E0F, 0x968F016D60417BB3, 0xE6B12B2C889913AB,
  0xAA3787887A9DA368, 0x06EE7202D53CEF39, 0x6149AFB2C296664B, 0x86C893210F9A5805,
  0x8379E5DA988AA04C, 0x24763AA7CE411A60, 0x9CF9C64B395A4CF8, 0xFFC192C338DDE904,
  0x094575BAB319E5F5, 0xBBBACFE7728C6511, 0x36B8C3CEBE4EF409, 0xAA0BA8A3397BA4D0,
  0xF9F85CF7124EE653, 0x3ADF4F7DF2A887AE, 0xAA2A0F5964AA9A7A, 0xF18B563F42D36EB8,
  0x034366CEF8334F5C, 0xAE2E85180E330E5F, 0xA5CE9FBFDF5C65B8, 0x5E509F25A9CA9B0B,
  0xE30D1358C2013BD2, 0xBB3A04D5EB8111FE, 0xB04234E82A15A28D, 0x87426A56D0EA0E2F,
  0x095086668E07F9F8, 0xF4CD3A43B6A6AEA5, 0x73F9B9B674D472A6, 0x558344229A1E4DCF,
  0x0AD4C95B2279181A, 0x5E3D19D80821CA6B, 0x652492D25BEBA258, 0xEFA84B02EAB849B1,
  0x81AD2D253059AC2C, 0x1400CCB0DFB2F457, 0x5688DC72A839860E, 0x67CC130E0FD1B0A7,
  0x0A851E3A94E21E69, 0x2EA0000B6A073907, 0xAE9776FF9BF1D02E, 0xC0A96B66B160631C,
  0xA93341DE4ED7C8F0, 0x6FBADD8F5B85E141, 0xB7D295F1C21E0CBA, 0x6D6114591B8E434F,
  0xF5B6939B63D97BE7, 0x3C80D5053F0E5DB4, 0xAC520ACC6B73F62D, 0xD1051F5841CF3966,
  0x62245AEA644AE760, 0x0CD56BE15497C62D, 0x5BB93435C4988FB6, 0x5FADB88EB18DB512,
  0xC897CAE2242475CC, 0xF1A094EF846DC9BB, 0x2B1D8B24924F79B6, 0xC6DF0C0E8456EB53,
  0xE6A40128303A9B9C, 0x64D37AF5EFFA7BD9, 0x90FEB70A5AE2A598, 0xEC3BA5F126D9FF4B,
  0x3121C8EC3AC51B29, 0x3B41C4D422166EC1, 0xB4878DDCBF48ED76, 0x5CB850D77CB762E4,
  0x9A27A43CC1DD171F, 0x2FDFFC6F99CB424A, 0xF54A57E09FDEA7BB, 0x5F78E5EE2CAB7039,
  0xB8BA95883DB31CBA, 0x131C61EB84AF86C3, 0x84B1F64E9C613DA7, 0xE94C1888C0C37C02,
  0xEA08F8BFB2039CDE, 0xCCC6D04D243EC753, 0x8977D105298B0629, 0x7AAA976494A5905E
]

/-- Table `t1ha_refval_ia32aes_a` (lines 98-119). -/
def t1ha_refval_ia32aes_a : List Nat := [
  0,
  0x772C7311BE32FF42, 0xB231AC660E5B23B5, 0x71F6DF5DA3B4F532, 0x555859635365F660,
  0xE98808F1CD39C626, 0x2EB18FAF2163BB09, 0x7B9DD892C8019C87, 0xE2B1431C4DA4D15A,
  0x1984E718A5477F70, 0x08DD17B266484F79, 0x4C83A05D766AD550, 0x92DCEBB131D1907D,
  0xD67BC6FC881B8549, 0xF6A9886555FBF66B, 0x6E31616D7F33E25E, 0x36E31B7426E3049D,
  0x4F8E4FAF46A13F5F, 0x03EB0CB3253F819F, 0x636A7769905770D2, 0x3ADF3781D16D1148,
  0x92D19CB1818BC9C2, 0x283E68F4D459C533, 0xFA83A8A88DECAA04, 0x8C6F00368EAC538C,
  0x7B66B0CF3797B322, 0x5131E122FDABA3FF, 0x6E59FF515C08C7A9, 0xBA2C5269B2C377B0,
  0xA9D24FD368FE8A2B, 0x22DB13D32E33E891, 0x7B97DFC804B876E5, 0xC598BDFCD0E834F9,
  0xB256163D3687F5A7, 0x66D7A73C6AEF50B3, 0xBB34C6A4396695D2, 0x7F46E1981C3256AD,
  0x4B25A9B217A6C5B4, 0x7A0A6BCDD2321DA9, 0x0A1F55E690A7B44E, 0x8F451A91D7F05244,
  0x624D5D3C9B9800A7, 0x09DDC2B6409DDC25, 0x3E155765865622B6, 0x96519FAC9511B381,
  0x512E58482FE4FBF0, 0x1AB260EA7D54AE1C, 0x67976F12CC28BBBD, 0x0607B5B2E6250156,
  0x7E700BEA717AD36E, 0x06A058D9D61CABB3, 0x57DA5324A824972F, 0x1193BA74DBEBF7E7,
  0xC18DC3140E7002D4, 0x9F7CCC11DFA0EF17, 0xC487D6C20666A13A, 0xB67190E4B50EF0C8,
  0xA53DAA608DF0B9A5, 0x7E13101DE87F9ED3, 0x7F8955AE2F05088B, 0x2DF7E5A097AD383F,
  0xF027683A21EA14B5, 0x9BB8AEC3E3360942, 0x92BE39B54967E7FE, 0x978C6D332E7AFD27,
  0xED512FE96A4FAE81, 0x9E1099B8140D7BA3, 0xDFD5A5BE1E6FE9A6, 0x1D82600E23B66DD4,
  0x3FA3C3B7EE7B52CE, 0xEE84F7D2A655EF4C, 0x2A4361EC769E3BEB, 0x22E4B38916636702,
  0x0063096F5D39A115, 0x6C51B24DAAFA5434, 0xBAFB1DB1B411E344, 0xFF529F161AE0C4B0,
  0x1290EAE3AC0A686F, 0xA7B0D4585447D1BE, 0xAED3D18CB6CCAD53, 0xFC73D46F8B41BEC6
]

/-- Table `t1ha_refval_ia32aes_b` (lines 121-142). -/
def t1ha_refval_ia32aes_b : List Nat := [
  0,
  0x772C7311BE32FF42, 0x4398F62A8CB6F72A, 0x71F6DF5DA3B4F532, 0x555859635365F660,
  0xE98808F1CD39C626, 0x2EB18FAF2163BB09, 0x7B9DD892C8019C87, 0xE2B1431C4DA4D15A,
  0x1984E718A5477F70, 0x08DD17B266484F79, 0x4C83A05D766AD550, 0x92DCEBB131D1907D,
  0xD67BC6FC881B8549, 0xF6A9886555FBF66B, 0x6E31616D7F33E25E, 0x36E31B7426E3049D,
  0x4F8E4FAF46A13F5F, 0x03EB0CB3253F819F, 0x636A7769905770D2, 0x3ADF3781D16D1148,
  0x92D19CB1818BC9C2, 0x283E68F4D459C533, 0xFA83A8A88DECAA04, 0x8C6F00368EAC538C,
  0x7B66B0CF3797B322, 0x5131E122FDABA3FF, 0x6E59FF515C08C7A9, 0xBA2C5269B2C377B0,
  0xA9D24FD368FE8A2B, 0x22DB13D32E33E891, 0x7B97DFC804B876E5, 0xC598BDFCD0E834F9,
  0xB256163D3687F5A7, 0x66D7A73C6AEF50B3, 0xE810F88E85CEA11A, 0x4814F8F3B83E4394,
  0x9CABA22D10A2F690, 0x0D10032511F58111, 0xE9A36EF5EEA3CD58, 0xC79242DE194D9D7C,
  0xC3871AA0435EE5C8, 0x52890BED43CCF4CD, 0x07A1D0861ACCD373, 0x227B816FF0FEE9ED,
  0x59FFBF73AACFC0C4, 0x09AB564F2BEDAD0C, 0xC05F744F2EE38318, 0x7B50B621D547C661,
  0x0C1F71CB4E68E5D1, 0x0E33A47881D4DBAA, 0xF5C3BF198E9A7C2E, 0x16328FD8C0F68A91,
  0xA3E399C9AB3E9A59, 0x163AE71CBCBB18B8, 0x18F17E4A8C79F7AB, 0x9250E2EA37014B45,
  0x7BBBB111D60B03E4, 0x3DAA4A3071A0BD88, 0xA28828D790A2D6DC, 0xBC70FC88F64BE3F1,
  0xA3E48008BA4333C7, 0x739E435ACAFC79F7, 0x42BBB360BE007CC6, 0x4FFB6FD2AF74EC92,
  0x2A799A2994673146, 0xBE0A045B69D48E9F, 0x549432F54FC6A278, 0x371D3C60369FC702,
  0xDB4557D415B08CA7, 0xE8692F0A83850B37, 0x022E46AEB36E9AAB, 0x117AC9B814E4652D,
  0xA361041267AE9048, 0x277CB51C961C3DDA, 0xAFFC96F377CB8A8D, 0x83CC79FA01DD1BA7,
  0xA494842ACF4B802C, 0xFC6D9CDDE2C34A3F, 0x4ED6863CE455F7A7, 0x630914D0DB7AAE98
]

/-- Modelled from the spec: `t1ha_test_pattern` of `t1ha_selfcheck.c` (not among the sources), the
fixed 64-byte pattern the growing corpus of section 4.6 is cut from. -/
def t1ha_test_pattern : List Nat := [
  0, 1, 2, 3, 4, 5, 6, 7, 0xFF, 0x7F, 0x3F,
  0x1F, 0xF, 8, 16, 32, 64, 0x80, 0xFE, 0xFC, 0xF8, 0xF0,
  0xE0, 0xC0, 0xFD, 0xFB, 0xF7, 0xEF, 0xDF, 0xBF, 0x55, 0xAA, 11,
  17, 19, 23, 29, 37, 42, 43, 97, 98, 99, 100,
  101, 102, 103, 104, 105, 106, 107, 108, 109, 110, 111,
  112, 113, 114, 115, 116, 117, 118, 119, 120]

/-- Modelled from the spec: `pattern_long` of `t1ha_selfcheck.c` (not among the sources), the
512-byte ramp whose byte at offset `k` is `k mod 256`. -/
def pattern_long : List Nat := (List.range 512).map fun k => k % 256

/-- One probe of the self-check corpus: the readable bytes, the length passed and the seed. -/
structure Probe where
  buf : List Nat
  len : Nat
  seed : Nat
deriving DecidableEq, Repr

/-- Modelled from the spec: the corpus of `t1ha_selfcheck` in `t1ha_selfcheck.c` (not among the
sources), section 4.6, in table order: the empty buffer with seed 0 and with seed `2^64 - 1`, the
whole pattern with seed 0, the prefixes of length 1..63 with seed `2^(i-1)`, the suffixes from
offset 1..7 with seed `(2^64 - 1) << i`, and eight windows of the ramp of length `128 + 17 * i`
at offset `i` with the last seed. -/
def corpus : List Probe :=
  [⟨[], 0, 0⟩, ⟨[], 0, 2 ^ 64 - 1⟩, ⟨t1ha_test_pattern, 64, 0⟩]
  ++ (List.range 63).map (fun k => ⟨t1ha_test_pattern.take (k + 1), k + 1, 2 ^ k⟩)
  ++ (List.range 7).map
      (fun k => ⟨t1ha_test_pattern.drop (k + 1), 64 - (k + 1), ((2 ^ 64 - 1) <<< (k + 1)) % 2 ^ 64⟩)
  ++ (List.range 8).map
      (fun i => ⟨(pattern_long.drop i).take (128 + i * 17), 128 + i * 17, 0xFFFFFFFFFFFFFF80⟩)

/-- Modelled from the spec: `probe` of `t1ha_selfcheck.c` (not among the sources): true when the
digest differs from the reference value (a run that fails has no digest and differs). -/
def probe (hash : List Nat → Nat → Nat → Rd Nat) (reference : Nat) (p : Probe) : Bool :=
  (hash p.buf p.len p.seed).value != some reference

/-- Modelled from the spec: `t1ha_selfcheck(hash, reference_values)` of `t1ha_selfcheck.c` (not
among the sources), section 4.6: every probe is run, mismatches are accumulated rather than
aborting, and the result is 0 when all reference values matched and -1 otherwise. -/
def t1ha_selfcheck (hash : List Nat → Nat → Nat → Rd Nat) (reference_values : List Nat) : Int :=
  let failed := (List.zipWith (probe hash) reference_values corpus).foldl (fun f m => f || m) false
  if failed then -1 else 0

/-- Function `t1ha_selfcheck__t1ha0_aes_neon` (lines 173-175). -/
def t1ha_selfcheck__t1ha0_aes_neon : Int :=
  t1ha_selfcheck t1ha0_arm64aes_neon t1ha_refval_ia32aes_a

/-! ## The scalar tail, as the specification words it -/

/-- The little-endian 64-bit words of a byte string, the last one zero-padded. -/
def words64 : List Nat → List Nat
  | [] => []
  | b0 :: b1 :: b2 :: b3 :: b4 :: b5 :: b6 :: b7 :: rest =>
    le_bytes [b0, b1, b2, b3, b4, b5, b6, b7] :: words64 rest
  | b0 :: bs => [le_bytes (b0 :: bs)]

/-- The prime tied to the tail position `j`, counted from the end (`j = 1` is the last word). -/
def tail_prime (j : Nat) : Nat :=
  if j = 1 then prime_1 else if j = 2 then prime_2 else if j = 3 then prime_3 else prime_4

/-- The descending sequence of mix steps over the remaining words: the word that is `j`-th from
the end is mixed with `tail_prime j`, into `(b, a)` when `j` is odd and into `(a, b)` when `j` is
even.  The result is the pair `(a, b)`. -/
def mix_words : List Nat → Nat → Nat → Nat × Nat
  | [], a, b => (a, b)
  | w :: ws, a, b =>
    if (ws.length + 1) % 2 = 1 then
      let ba := mixup64 b a w (tail_prime (ws.length + 1))
      mix_words ws ba.2 ba.1
    else
      let ab := mixup64 a b w (tail_prime (ws.length + 1))
      mix_words ws ab.1 ab.2

/-- The scalar tail and finish of section 4.3, steps 3 and 4, on the `r` remaining bytes. -/
def tailFinish (a b : Nat) (bytes : List Nat) (r : Nat) : Nat :=
  let ab := mix_words (words64 (bytes.take r)) a b
  final64 ab.1 ab.2

/-! ## The 32-bit little-endian variant (`t1ha0.c`) -/

/-- Modelled from the spec: 32-bit design constant `prime32_0` of `t1ha_bits.h` (not among the
sources). -/
def prime32_0 : Nat := 0x92D78269
/-- Modelled from the spec: 32-bit design constant `prime32_1` (`t1ha_bits.h`, not among the sources). -/
def prime32_1 : Nat := 0xCA9B4735
/-- Modelled from the spec: 32-bit design constant `prime32_2` (`t1ha_bits.h`, not among the sources). -/
def prime32_2 : Nat := 0xA4ABA1C3
/-- Modelled from the spec: 32-bit design constant `prime32_3` (`t1ha_bits.h`, not among the sources). -/
def prime32_3 : Nat := 0xF6499843
/-- Modelled from the spec: 32-bit design constant `prime32_4` (`t1ha_bits.h`, not among the sources). -/
def prime32_4 : Nat := 0x86F0FD61
/-- Modelled from the spec: 32-bit design constant `prime32_5` (`t1ha_bits.h`, not among the sources). -/
def prime32_5 : Nat := 0xCA2DA6FB
/-- Modelled from the spec: 32-bit design constant `prime32_6` (`t1ha_bits.h`, not among the sources). -/
def prime32_6 : Nat := 0xC4BB3575

/-- Modelled from the spec: `rot32` of `t1ha_bits.h` (not among the sources), 32-bit rotation
`(v >> s) | (v << (32 - s))`. -/
def rot32 (v s : Nat) : Nat := ((v >>> s) ||| (v <<< (32 - s))) % 2 ^ 32

/-- Modelled from the spec: `mixup32` of `t1ha0.c` (not among the sources), the 32-bit mix step:
`l = (*b + v) * prime; *a ^= low32(l); *b += high32(l)`.  The result is the new `(*a, *b)`. -/
def mixup32 (a b v prime : Nat) : Nat × Nat :=
  let l := ((b + v) % 2 ^ 32) * prime
  (a ^^^ (l % 2 ^ 32), (b + l / 2 ^ 32) % 2 ^ 32)

/-- Modelled from the spec: `final32` of `t1ha0.c` (not among the sources), the finishing
transform of the 32-bit family. -/
def final32 (a b : Nat) : Nat :=
  let l := (b ^^^ rot32 a 13) ||| (a <<< 32)
  let l := (l * prime_0) % 2 ^ 64
  let l := l ^^^ (l >>> 41)
  let l := (l * prime_4) % 2 ^ 64
  let l := l ^^^ (l >>> 47)
  (l * prime_6) % 2 ^ 64

/-- Modelled from the spec: `fetch32_le_unaligned` of `t1ha_bits.h` (not among the sources), the 4
bytes at `v` as a little-endian word. -/
def fetch32_le_unaligned (data : List Nat) (v : Nat) : Rd Nat := do
  let bs ← read_bytes data v 4
  pure (le_bytes bs)

/-- Modelled from the spec: `tail32_le_unaligned` of `t1ha_bits.h` (not among the sources), the
last partial 32-bit word; the low two bits of the length argument select 1, 2, 3 or (for a
multiple of 4) 4 bytes. -/
def tail32_le_unaligned (data : List Nat) (v tail : Nat) : Rd Nat := do
  let bs ← read_bytes data v (if tail &&& 3 = 0 then 4 else tail &&& 3)
  pure (le_bytes bs)

/-- Modelled from the spec: the 16-byte block loop `do ... while (v < detent)` of `t1ha0.c` (not
among the sources), `detent = data + len - 15`; the state is `(a, b, c, d)`.  Each unit of fuel
pays for one run of the body. -/
def body32_loop (data : List Nat) (len : Nat) :
    Nat → Nat → Nat → Nat → Nat → Nat → Rd (Nat × Nat × Nat × Nat × Nat)
  | 0, _, _, _, _, _ => none
  | fuel + 1, v, a, b, c, d => do
    let w0 ← fetch32_le_unaligned data (v + 4 * 0)
    let w1 ← fetch32_le_unaligned data (v + 4 * 1)
    let w2 ← fetch32_le_unaligned data (v + 4 * 2)
    let w3 ← fetch32_le_unaligned data (v + 4 * 3)
    let v := v + 4 * 4
    let d13 := (w1 + rot32 ((w3 + d) % 2 ^ 32) 17) % 2 ^ 32
    let c02 := w0 ^^^ rot32 ((w2 + c) % 2 ^ 32) 11
    let d := d ^^^ rot32 ((a + w0) % 2 ^ 32) 3
    let c := c ^^^ rot32 ((b + w1) % 2 ^ 32) 7
    let b := (prime32_1 * ((c02 + w3) % 2 ^ 32)) % 2 ^ 32
    let a := (prime32_0 * (d13 ^^^ w2)) % 2 ^ 32
    if (v : Int) < (len : Int) - 15 then body32_loop data len fuel v a b c d
    else pure (v, a, b, c, d)

/-- Modelled from the spec: the tail switch of the 32-bit family in `t1ha0.c` (not among the
sources): `default`, `case 12..9`, `case 8..5`, `case 4..1` and `case 0`, falling through. -/
def tail32_switch (data : List Nat) (v len a b : Nat) : Rd Nat := do
  let (v, a, b) ←
    if len = 0 ∨ len ≤ 12 then pure (v, a, b)
    else do
      let w ← fetch32_le_unaligned data v
      let ab := mixup32 a b w prime32_4
      pure (v + 4, ab.1, ab.2)
  let (v, a, b) ←
    if len = 0 ∨ len ≤ 8 then pure (v, a, b)
    else do
      let w ← fetch32_le_unaligned data v
      let ba := mixup32 b a w prime32_3
      pure (v + 4, ba.2, ba.1)
  let (v, a, b) ←
    if len = 0 ∨ len ≤ 4 then pure (v, a, b)
    else do
      let w ← fetch32_le_unaligned data v
      let ab := mixup32 a b w prime32_2
      pure (v + 4, ab.1, ab.2)
  let (a, b) ←
    if len = 0 then pure (a, b)
    else do
      let w ← tail32_le_unaligned data v len
      let ba := mixup32 b a w prime32_1
      pure (ba.2, ba.1)
  pure (final32 a b)

/-- Modelled from the spec: `t1ha0_32le(data, len, seed)` of `t1ha0.c` (not among the sources),
the little-endian 32-bit family: the accumulator pair is initialised from seed and length, inputs
longer than 16 bytes go through the 16-byte block loop, then the tail switch and `final32`. -/
def t1ha0_32le (data : List Nat) (len seed : Nat) : Rd Nat := do
  let a := (rot32 (len % 2 ^ 32) 17 + seed % 2 ^ 32) % 2 ^ 32
  let b := (len % 2 ^ 32) ^^^ ((seed >>> 32) % 2 ^ 32)
  let (v, len, a, b) ←
    if len > 16 then do
      let c := (2 ^ 32 - 1) ^^^ a
      let d := rot32 b 5
      let (v, a, b, c, d) ← body32_loop data len (len / 16 + 1) 0 a b c d
      let c := (c + a) % 2 ^ 32
      let d := (d + b) % 2 ^ 32
      let a := a ^^^ ((prime32_6 * ((rot32 c 16 + d) % 2 ^ 32)) % 2 ^ 32)
      let b := b ^^^ ((prime32_5 * ((c + rot32 d 16) % 2 ^ 32)) % 2 ^ 32)
      pure (v, len &&& 15, a, b)
    else pure (0, len, a, b)
  tail32_switch data v len a b

/-- Function `t1ha_selfcheck__t1ha0_32le` (lines 148-150). -/
def t1ha_selfcheck__t1ha0_32le : Int := t1ha_selfcheck t1ha0_32le t1ha_refval_32le

/-! ## The aggregate self-check -/

/-- The per-variant self-checks that `t1ha_selfcheck__t1ha0` can call. -/
inductive Variant where
  | t1ha0_32le
  | t1ha0_32be
  | t1ha2
  | t1ha1
  | t1ha0_ia32aes_noavx
  | t1ha0_ia32aes_avx
  | t1ha0_ia32aes_avx2
  | t1ha0_aes_neon
deriving DecidableEq, Repr

/-- The preprocessor conditions that select the lines of `t1ha_selfcheck__t1ha0`. -/
structure Build where
  /-- Condition `UINTPTR_MAX > 0xffffFFFFul || ULONG_MAX > 0xffffFFFFul`. -/
  wide : Bool
  /-- Condition `defined(T1HA1_DISABLED)`. -/
  t1ha1_disabled : Bool
  /-- Condition `defined(T1HA2_DISABLED)`. -/
  t1ha2_disabled : Bool
  /-- Condition `T1HA0_AESNI_AVAILABLE`. -/
  aesni_available : Bool
  /-- Condition `defined(__e2k__)`. -/
  e2k : Bool
  /-- Condition `T1HA0_NEON_AVAILABLE`. -/
  neon_available : Bool
deriving DecidableEq, Repr

/-- What the detector reports on `t1ha_ia32cpu_features()`: the results of
`t1ha_ia32_AESNI_avail`, `t1ha_ia32_AVX_avail` and `t1ha_ia32_AVX2_avail`. -/
structure Features where
  aesni : Bool
  avx : Bool
  avx2 : Bool
deriving DecidableEq, Repr

/-- The state of a run of the aggregate: the accumulated `rc` and the self-checks called so far,
in call order. -/
structure Agg where
  rc : Int
  ran : List Variant
deriving DecidableEq, Repr

/-- The statement `rc |= check()`: the check is called and its result or-ed into `rc`
(`Int.lor` is the bitwise or of two's complement integers). -/
def Agg.call (s : Agg) (check : Variant → Int) (v : Variant) : Agg :=
  ⟨Int.lor s.rc (check v), s.ran ++ [v]⟩

/-- Function `t1ha_selfcheck__t1ha0` (lines 179-212).  The values returned by the per-variant
self-checks are the parameter `check`. -/
def t1ha_selfcheck__t1ha0 (cfg : Build) (features : Features) (check : Variant → Int) : Agg :=
  let s : Agg := ⟨Int.lor (check .t1ha0_32le) (check .t1ha0_32be), [.t1ha0_32le, .t1ha0_32be]⟩
  let s :=
    if cfg.wide && (!cfg.t1ha1_disabled || !cfg.t1ha2_disabled) then
      if cfg.t1ha1_disabled then s.call check .t1ha2 else s.call check .t1ha1
    else s
  let s :=
    if cfg.aesni_available then
      if cfg.e2k then
        (s.call check .t1ha0_ia32aes_noavx).call check .t1ha0_ia32aes_avx
      else
        if features.aesni then
          let s := s.call check .t1ha0_ia32aes_noavx
          if features.avx then
            let s := s.call check .t1ha0_ia32aes_avx
            if features.avx2 then s.call check .t1ha0_ia32aes_avx2 else s
          else s
        else s
    else s
  let s := if cfg.neon_available then s.call check .t1ha0_aes_neon else s
  s

/-- The accumulated `rc` is the or of the results of the checks called so far, in call order. -/
def Agg.sound (check : Variant → Int) (s : Agg) : Prop :=
  s.rc = (s.ran.map check).foldl Int.lor 0

/-! ## The tail switch, word by word -/

/-- The mix step `mixup64(&a, &b, w, prime)` on the pair `(a, b)`. -/
def mix_ab (p : Nat × Nat) (w prime : Nat) : Nat × Nat := mixup64 p.1 p.2 w prime

/-- The mix step `mixup64(&b, &a, w, prime)` on the pair `(a, b)`. -/
def mix_ba (p : Nat × Nat) (w prime : Nat) : Nat × Nat :=
  ((mixup64 p.2 p.1 w prime).2, (mixup64 p.2 p.1 w prime).1)

/-- The `k`-th little-endian 64-bit word of the `r` bytes at offset `v`, after these bytes have
been zero-padded to a multiple of 8. -/
def tail_word (data : List Nat) (v r k : Nat) : Nat :=
  le_bytes (bytes_at (bytes_at data v r ++ List.replicate (8 * ((r + 7) / 8) - r) 0) (8 * k) 8)

/-! ## The tail reader behind a contract -/

instance {α : Type} [DecidableEq α] : DecidableEq (Rd α) :=
  inferInstanceAs (DecidableEq (Option (α × List Access)))

/-- A tail reader behind a contract on its length argument: a call whose argument is outside
`lo..hi` is a failure, a call inside the contract is `tail64_le_unaligned`.  The contract of
section 4.2 is `tail64_within 0 7`. -/
def tail64_within (lo hi : Nat) (data : List Nat) (v tail : Nat) : Rd Nat :=
  if lo ≤ tail ∧ tail ≤ hi then tail64_le_unaligned data v tail else none

/-- Labels `case 8` .. `case 1` (line 151) with the tail reader as a parameter. -/
def tail_case_8_with (tail64 : List Nat → Nat → Nat → Rd Nat) (data : List Nat)
    (v len a b : Nat) : Rd Nat := do
  let w ← tail64 data v len
  let ba := mixup64 b a w prime_1
  tail_case_0 ba.2 ba.1

/-- Labels `case 16` .. `case 9` (line 141) with the tail reader as a parameter. -/
def tail_case_16_with (tail64 : List Nat → Nat → Nat → Rd Nat) (data : List Nat)
    (v len a b : Nat) : Rd Nat := do
  let w ← fetch64_le_unaligned data v
  let ab := mixup64 a b w prime_2
  tail_case_8_with tail64 data (v + 8) len ab.1 ab.2

/-- Labels `case 24` .. `case 17` (line 131) with the tail reader as a parameter. -/
def tail_case_24_with (tail64 : List Nat → Nat → Nat → Rd Nat) (data : List Nat)
    (v len a b : Nat) : Rd Nat := do
  let w ← fetch64_le_unaligned data v
  let ba := mixup64 b a w prime_3
  tail_case_16_with tail64 data (v + 8) len ba.2 ba.1

/-- Label `default` (line 121) with the tail reader as a parameter. -/
def tail_default_with (tail64 : List Nat → Nat → Nat → Rd Nat) (data : List Nat)
    (v len a b : Nat) : Rd Nat := do
  let w ← fetch64_le_unaligned data v
  let ab := mixup64 a b w prime_4
  tail_case_24_with tail64 data (v + 8) len ab.1 ab.2

/-- The `switch (len)` of lines 118-155 with the tail reader as a parameter. -/
def tail_switch_with (tail64 : List Nat → Nat → Nat → Rd Nat) (data : List Nat)
    (v len a b : Nat) : Rd Nat :=
  if len = 0 then tail_case_0 a b
  else if 1 ≤ len ∧ len ≤ 8 then tail_case_8_with tail64 data v len a b
  else if 9 ≤ len ∧ len ≤ 16 then tail_case_16_with tail64 data v len a b
  else if 17 ≤ len ∧ len ≤ 24 then tail_case_24_with tail64 data v len a b
  else tail_default_with tail64 data v len a b

/-- Function `t1ha0_arm64aes_neon` (lines 52-156) with the tail reader it calls on line 151 as a
parameter; `t1ha0_arm64aes_neon` itself is the instance at `tail64_le_unaligned`. -/
def t1ha0_arm64aes_neon_with (tail64 : List Nat → Nat → Nat → Rd Nat) (data : List Nat)
    (len seed : Nat) : Rd Nat := do
  let a := seed
  let b := len
  let (v, len, a, b) ← if len > 32 then bulk data len a b else pure (0, len, a, b)
  tail_switch_with tail64 data v len a b

/-- The number of bytes with which `t1ha0_arm64aes_neon` enters its tail switch. -/
def tail_count (len : Nat) : Nat := if len > 32 then len &&& 15 else len

/-! ## The constants of the variant -/

theorem rd_bind_def {α β : Type} (m : Rd α) (f : α → Rd β) : (m >>= f) = Rd.bind m f := rfl

theorem rd_pure_def {α : Type} (a : α) : (pure a : Rd α) = some (a, []) := rfl

theorem rd_bind_some {α β : Type} (a : α) (l : List Access) (f : α → Rd β) :
    Rd.bind (some (a, l)) f = Option.map (fun r => (r.1, l ++ r.2)) (f a) := by
  show (match f a with
    | none => none
    | some (b, l') => some (b, l ++ l')) = _
  cases f a with
  | none => rfl
  | some r => rfl

/-! ## Readers -/

theorem read_bytes_ok (data : List Nat) (off n : Nat) (h : off + n ≤ data.length) :
    read_bytes data off n = some (bytes_at data off n, [⟨off, n⟩]) := by
  unfold read_bytes
  rw [if_pos h]

theorem bytes_at_take (data : List Nat) (len off n : Nat) (h : off + n ≤ len) :
    bytes_at (data.take len) off n = bytes_at data off n := by
  unfold bytes_at
  rw [List.drop_take, List.take_take]
  congr 1
  omega

theorem read_bytes_take (data : List Nat) (len off n : Nat) (hlen : len ≤ data.length)
    (h : off + n ≤ len) : read_bytes (data.take len) off n = read_bytes data off n := by
  unfold read_bytes
  rw [bytes_at_take data len off n h, List.length_take, Nat.min_eq_left hlen]
  rw [if_pos h, if_pos (by omega)]

theorem loadu_ok (data : List Nat) (v : Nat) (h : v + 16 ≤ data.length) :
    _mm_loadu_si128 data v = some (M128.ofBytes (bytes_at data v 16), [⟨v, 16⟩]) := by
  unfold _mm_loadu_si128
  rw [rd_bind_def, read_bytes_ok data v 16 h, rd_bind_some]
  rfl

theorem loadu_take (data : List Nat) (len v : Nat) (hlen : len ≤ data.length)
    (h : v + 16 ≤ len) : _mm_loadu_si128 (data.take len) v = _mm_loadu_si128 data v := by
  unfold _mm_loadu_si128
  rw [read_bytes_take data len v 16 hlen h]

theorem fetch64_ok (data : List Nat) (v : Nat) (h : v + 8 ≤ data.length) :
    fetch64_le_unaligned data v = some (le_bytes (bytes_at data v 8), [⟨v, 8⟩]) := by
  unfold fetch64_le_unaligned
  rw [rd_bind_def, read_bytes_ok data v 8 h, rd_bind_some]
  rfl

/-- The number of bytes the tail reader loads for a length argument `tail`. -/
theorem tail_width (tail : Nat) (h : 0 < tail) :
    (if tail &&& 7 = 0 then 8 else tail &&& 7) = (tail - 1) % 8 + 1 := by
  have h7 : tail &&& 7 = tail % 8 := Nat.and_pow_two_sub_one_eq_mod tail 3
  rw [h7]
  split <;> omega

theorem tail64_ok (data : List Nat) (v tail : Nat) (ht : 0 < tail)
    (h : v + ((tail - 1) % 8 + 1) ≤ data.length) :
    tail64_le_unaligned data v tail
      = some (le_bytes (bytes_at data v ((tail - 1) % 8 + 1)), [⟨v, (tail - 1) % 8 + 1⟩]) := by
  unfold tail64_le_unaligned
  rw [tail_width tail ht, rd_bind_def, read_bytes_ok data v _ h, rd_bind_some]
  rfl

theorem and_two_pow (n i : Nat) : n &&& 2 ^ i = 2 ^ i * (n / 2 ^ i % 2) := by
  apply Nat.eq_of_testBit_eq
  intro j
  rw [Nat.testBit_and, Nat.testBit_two_pow]
  rcases Nat.mod_two_eq_zero_or_one (n / 2 ^ i) with h | h
  · rw [h, Nat.mul_zero, Nat.zero_testBit]
    by_cases hij : i = j
    · subst hij
      simp [Nat.testBit_to_div_mod, h]
    · simp [hij]
  · rw [h, Nat.mul_one, Nat.testBit_two_pow]
    by_cases hij : i = j
    · subst hij
      simp [Nat.testBit_to_div_mod, h]
    · simp [hij]

theorem and_64 (n : Nat) : n &&& 64 = 64 * (n / 64 % 2) := and_two_pow n 6
theorem and_32 (n : Nat) : n &&& 32 = 32 * (n / 32 % 2) := and_two_pow n 5
theorem and_16 (n : Nat) : n &&& 16 = 16 * (n / 16 % 2) := and_two_pow n 4
theorem and_15 (n : Nat) : n &&& 15 = n % 16 := Nat.and_pow_two_sub_one_eq_mod n 4

theorem block_log_append (k m n : Nat) : block_log k m ++ block_log (k + m) n = block_log k (m + n) := by
  unfold block_log
  rw [← List.map_append, List.range'_append_1, Nat.add_comm n m]

theorem block_log_zero (k : Nat) : block_log k 0 = [] := rfl

theorem block_log_succ (k n : Nat) : block_log k (n + 1) = ⟨16 * k, 16⟩ :: block_log (k + 1) n := by
  unfold block_log
  rw [List.range'_succ, List.map_cons]

theorem mem_block_log (k n : Nat) (a : Access) (h : a ∈ block_log k n) :
    a.width = 16 ∧ 16 * k ≤ a.off ∧ a.off + 16 ≤ 16 * (k + n) := by
  unfold block_log at h
  rw [List.mem_map] at h
  obtain ⟨i, hi, rfl⟩ := h
  rw [List.mem_range'_1] at hi
  refine ⟨rfl, ?_, ?_⟩ <;> simp only [] <;> omega

theorem bulk_loop_take (data : List Nat) (len : Nat) (hlen : len ≤ data.length) :
    ∀ (fuel v : Nat) (x y : M128),
      bulk_loop (data.take len) len fuel v x y = bulk_loop data len fuel v x y := by
  intro fuel
  induction fuel with
  | zero => intro v x y; rfl
  | succ fuel ih =>
    intro v x y
    simp only [bulk_loop]
    by_cases hc : (v : Int) < (len : Int) - 127
    · rw [if_pos hc, if_pos hc]
      rw [loadu_take data len _ hlen (by omega), loadu_take data len _ hlen (by omega),
        loadu_take data len _ hlen (by omega), loadu_take data len _ hlen (by omega),
        loadu_take data len _ hlen (by omega), loadu_take data len _ hlen (by omega),
        loadu_take data len _ hlen (by omega), loadu_take data len _ hlen (by omega)]
      simp only [ih]
    · rw [if_neg hc, if_neg hc]

/-- The block loop entered at block `j` with `d` blocks still complete: whatever the fuel, as
long as it pays for the `d + 1` tests of the condition, the loop ends at `128 * (len / 128)` in
the same state, after loading the `8 * d` 16-byte blocks in between, in ascending order. -/
theorem bulk_loop_spec (data : List Nat) (len : Nat) (hlen : len ≤ data.length) :
    ∀ (d j : Nat) (x y : M128), j + d = len / 128 →
      ∃ x1 y1, ∀ fuel, d < fuel → bulk_loop data len fuel (128 * j) x y
        = some ((128 * (len / 128), x1, y1), block_log (8 * j) (8 * d)) := by
  intro d
  induction d with
  | zero =>
    intro j x y hj
    refine ⟨x, y, ?_⟩
    intro fuel hf
    obtain ⟨f, rfl⟩ : ∃ f, fuel = f + 1 := ⟨fuel - 1, by omega⟩
    simp only [bulk_loop]
    have hc : ¬ ((128 * j : Nat) : Int) < (len : Int) - 127 := by omega
    rw [if_neg hc]
    have e : j = len / 128 := by omega
    rw [e]
    rfl
  | succ d ih =>
    intro j x y hj
    have hc : ((128 * j : Nat) : Int) < (len : Int) - 127 := by omega
    obtain ⟨x1, y1, h⟩ := ih (j + 1)
      (bulk_block (M128.ofBytes (bytes_at data (128 * j + 16 * 0) 16))
        (M128.ofBytes (bytes_at data (128 * j + 16 * 1) 16))
        (M128.ofBytes (bytes_at data (128 * j + 16 * 2) 16))
        (M128.ofBytes (bytes_at data (128 * j + 16 * 3) 16))
        (M128.ofBytes (bytes_at data (128 * j + 16 * 4) 16))
        (M128.ofBytes (bytes_at data (128 * j + 16 * 5) 16))
        (M128.ofBytes (bytes_at data (128 * j + 16 * 6) 16))
        (M128.ofBytes (bytes_at data (128 * j + 16 * 7) 16)) x y).1
      (bulk_block (M128.ofBytes (bytes_at data (128 * j + 16 * 0) 16))
        (M128.ofBytes (bytes_at data (128 * j + 16 * 1) 16))
        (M128.ofBytes (bytes_at data (128 * j + 16 * 2) 16))
        (M128.ofBytes (bytes_at data (128 * j + 16 * 3) 16))
        (M128.ofBytes (bytes_at data (128 * j + 16 * 4) 16))
        (M128.ofBytes (bytes_at data (128 * j + 16 * 5) 16))
        (M128.ofBytes (bytes_at data (128 * j + 16 * 6) 16))
        (M128.ofBytes (bytes_at data (128 * j + 16 * 7) 16)) x y).2 (by omega)
    refine ⟨x1, y1, ?_⟩
    intro fuel hf
    obtain ⟨f, rfl⟩ : ∃ f, fuel = f + 1 := ⟨fuel - 1, by omega⟩
    simp only [bulk_loop]
    rw [if_pos hc]
    rw [loadu_ok data _ (by omega), loadu_ok data _ (by omega), loadu_ok data _ (by omega),
      loadu_ok data _ (by omega), loadu_ok data _ (by omega), loadu_ok data _ (by omega),
      loadu_ok data _ (by omega), loadu_ok data _ (by omega)]
    simp only [rd_bind_def, rd_bind_some]
    have e : 128 * j + 16 * 8 = 128 * (j + 1) := by omega
    rw [e, h f (by omega)]
    have e2 : 8 * (d + 1) = 8 * d + 1 + 1 + 1 + 1 + 1 + 1 + 1 + 1 := by omega
    rw [e2]
    simp only [Option.map_some', block_log_succ, List.singleton_append, List.cons_append,
      List.nil_append, List.append_assoc]
    have e3 : 8 * j + 1 + 1 + 1 + 1 + 1 + 1 + 1 + 1 = 8 * (j + 1) := by omega
    rw [e3]
    have o0 : 128 * j + 16 * 0 = 16 * (8 * j) := by omega
    have o1 : 128 * j + 16 * 1 = 16 * (8 * j + 1) := by omega
    have o2 : 128 * j + 16 * 2 = 16 * (8 * j + 1 + 1) := by omega
    have o3 : 128 * j + 16 * 3 = 16 * (8 * j + 1 + 1 + 1) := by omega
    have o4 : 128 * j + 16 * 4 = 16 * (8 * j + 1 + 1 + 1 + 1) := by omega
    have o5 : 128 * j + 16 * 5 = 16 * (8 * j + 1 + 1 + 1 + 1 + 1) := by omega
    have o6 : 128 * j + 16 * 6 = 16 * (8 * j + 1 + 1 + 1 + 1 + 1 + 1) := by omega
    have o7 : 128 * j + 16 * 7 = 16 * (8 * j + 1 + 1 + 1 + 1 + 1 + 1 + 1) := by omega
    rw [o0, o1, o2, o3, o4, o5, o6, o7]

theorem bulk_64_take (data : List Nat) (len v : Nat) (x y : M128) (hlen : len ≤ data.length)
    (h : len / 64 % 2 = 1 → v + 64 ≤ len) :
    bulk_64 (data.take len) len v x y = bulk_64 data len v x y := by
  unfold bulk_64
  rw [and_64]
  by_cases hb : 64 * (len / 64 % 2) ≠ 0
  · have h1 := h (by omega)
    rw [if_pos hb, if_pos hb]
    rw [loadu_take data len _ hlen (by omega), loadu_take data len _ hlen (by omega),
      loadu_take data len _ hlen (by omega), loadu_take data len _ hlen (by omega)]
  · rw [if_neg hb, if_neg hb]

theorem bulk_64_spec (data : List Nat) (len k : Nat) (x y : M128)
    (h : len / 64 % 2 = 1 → 16 * k + 64 ≤ data.length) :
    ∃ x1 y1, bulk_64 data len (16 * k) x y
      = some ((16 * (k + 4 * (len / 64 % 2)), x1, y1), block_log k (4 * (len / 64 % 2))) := by
  unfold bulk_64
  rw [and_64]
  by_cases hb : 64 * (len / 64 % 2) ≠ 0
  · have hb1 : len / 64 % 2 = 1 := by omega
    have h1 := h hb1
    rw [if_pos hb, hb1]
    rw [loadu_ok data _ (by omega), loadu_ok data _ (by omega), loadu_ok data _ (by omega),
      loadu_ok data _ (by omega)]
    simp only [rd_bind_def, rd_bind_some, rd_pure_def, Option.map_some', block_log_succ,
      block_log_zero, List.singleton_append, List.cons_append, List.nil_append, List.append_nil]
    have o1 : 16 * k + 16 = 16 * (k + 1) := by omega
    have o2 : 16 * k + 32 = 16 * (k + 1 + 1) := by omega
    have o3 : 16 * k + 48 = 16 * (k + 1 + 1 + 1) := by omega
    have o4 : 16 * k + 64 = 16 * (k + 4 * 1) := by omega
    rw [o1, o2, o3, o4]
    exact ⟨_, _, rfl⟩
  · have hb0 : len / 64 % 2 = 0 := by omega
    rw [if_neg hb, hb0]
    exact ⟨x, y, rfl⟩

theorem bulk_32_take (data : List Nat) (len v : Nat) (x y : M128) (hlen : len ≤ data.length)
    (h : len / 32 % 2 = 1 → v + 32 ≤ len) :
    bulk_32 (data.take len) len v x y = bulk_32 data len v x y := by
  unfold bulk_32
  rw [and_32]
  by_cases hb : 32 * (len / 32 % 2) ≠ 0
  · have h1 := h (by omega)
    rw [if_pos hb, if_pos hb]
    rw [loadu_take data len _ hlen (by omega), loadu_take data len _ hlen (by omega)]
  · rw [if_neg hb, if_neg hb]

theorem bulk_32_spec (data : List Nat) (len k : Nat) (x y : M128)
    (h : len / 32 % 2 = 1 → 16 * k + 32 ≤ data.length) :
    ∃ x1 y1, bulk_32 data len (16 * k) x y
      = some ((16 * (k + 2 * (len / 32 % 2)), x1, y1), block_log k (2 * (len / 32 % 2))) := by
  unfold bulk_32
  rw [and_32]
  by_cases hb : 32 * (len / 32 % 2) ≠ 0
  · have hb1 : len / 32 % 2 = 1 := by omega
    have h1 := h hb1
    rw [if_pos hb, hb1]
    rw [loadu_ok data _ (by omega), loadu_ok data _ (by omega)]
    simp only [rd_bind_def, rd_bind_some, rd_pure_def, Option.map_some', block_log_succ,
      block_log_zero, List.singleton_append, List.cons_append, List.nil_append, List.append_nil]
    have o1 : 16 * k + 16 = 16 * (k + 1) := by omega
    have o2 : 16 * k + 32 = 16 * (k + 2 * 1) := by omega
    rw [o1, o2]
    exact ⟨_, _, rfl⟩
  · have hb0 : len / 32 % 2 = 0 := by omega
    rw [if_neg hb, hb0]
    exact ⟨x, y, rfl⟩

theorem bulk_16_take (data : List Nat) (len v : Nat) (x y : M128) (hlen : len ≤ data.length)
    (h : len / 16 % 2 = 1 → v + 16 ≤ len) :
    bulk_16 (data.take len) len v x y = bulk_16 data len v x y := by
  unfold bulk_16
  rw [and_16]
  by_cases hb : 16 * (len / 16 % 2) ≠ 0
  · have h1 := h (by omega)
    rw [if_pos hb, if_pos hb]
    rw [loadu_take data len _ hlen (by omega)]
  · rw [if_neg hb, if_neg hb]

theorem bulk_16_spec (data : List Nat) (len k : Nat) (x y : M128)
    (h : len / 16 % 2 = 1 → 16 * k + 16 ≤ data.length) :
    ∃ x1 y1, bulk_16 data len (16 * k) x y
      = some ((16 * (k + len / 16 % 2), x1, y1), block_log k (len / 16 % 2)) := by
  unfold bulk_16
  rw [and_16]
  by_cases hb : 16 * (len / 16 % 2) ≠ 0
  · have hb1 : len / 16 % 2 = 1 := by omega
    have h1 := h hb1
    rw [if_pos hb, hb1]
    rw [loadu_ok data _ (by omega)]
    simp only [rd_bind_def, rd_bind_some, rd_pure_def, Option.map_some', block_log_succ,
      block_log_zero, List.singleton_append, List.cons_append, List.nil_append, List.append_nil]
    have o1 : 16 * k + 16 = 16 * (k + 1) := by omega
    rw [o1]
    exact ⟨_, _, rfl⟩
  · have hb0 : len / 16 % 2 = 0 := by omega
    rw [if_neg hb, hb0]
    exact ⟨x, y, rfl⟩

/-- The wide-accumulator phase on a buffer with at least `len` readable bytes: it succeeds, leaves
the read pointer at `len - len % 16` with `len % 16` bytes remaining, has loaded the
`len / 16` leading 16-byte blocks in ascending order, and has read nothing beyond `len`. -/
theorem bulk_spec (data : List Nat) (len a b : Nat) (hlen : len ≤ data.length) :
    ∃ lo hi, bulk data len a b
        = some ((len - len % 16, len % 16, lo, hi), block_log 0 (len / 16)) ∧
      bulk (data.take len) len a b = bulk data len a b := by
  unfold bulk
  simp only [rd_bind_def]
  rw [bulk_loop_take data len hlen]
  obtain ⟨x1, y1, hloop⟩ := bulk_loop_spec data len hlen (len / 128) 0
    (_mm_set_epi64x a b) (_mm_aesenc_si128 (_mm_set_epi64x a b) (_mm_set_epi64x prime_5 prime_6))
    (by omega)
  rw [Nat.mul_zero] at hloop
  have h1 := hloop (len + 1) (by omega)
  rw [h1]
  simp only [rd_bind_some]
  have e1 : 128 * (len / 128) = 16 * (8 * (len / 128)) := by omega
  rw [e1, bulk_64_take data len _ x1 y1 hlen (by omega)]
  obtain ⟨x2, y2, h2⟩ := bulk_64_spec data len (8 * (len / 128)) x1 y1 (by omega)
  rw [h2]
  simp only [rd_bind_some]
  rw [bulk_32_take data len _ x2 y2 hlen (by omega)]
  obtain ⟨x3, y3, h3⟩ := bulk_32_spec data len (8 * (len / 128) + 4 * (len / 64 % 2)) x2 y2
    (by omega)
  rw [h3]
  simp only [rd_bind_some]
  rw [bulk_16_take data len _ x3 y3 hlen (by omega)]
  obtain ⟨x4, y4, h4⟩ := bulk_16_spec data len
    (8 * (len / 128) + 4 * (len / 64 % 2) + 2 * (len / 32 % 2)) x3 y3 (by omega)
  rw [h4]
  simp only [rd_bind_some, rd_pure_def, Option.map_some', List.append_nil, and_15]
  have e2 : 16 * (8 * (len / 128) + 4 * (len / 64 % 2) + 2 * (len / 32 % 2) + len / 16 % 2)
      = len - len % 16 := by omega
  have e3 : block_log 0 (len / 16) = block_log 0 (8 * (len / 128)) ++
      (block_log (8 * (len / 128)) (4 * (len / 64 % 2)) ++
        (block_log (8 * (len / 128) + 4 * (len / 64 % 2)) (2 * (len / 32 % 2)) ++
          block_log (8 * (len / 128) + 4 * (len / 64 % 2) + 2 * (len / 32 % 2))
            (len / 16 % 2))) := by
    rw [block_log_append, block_log_append]
    have := block_log_append 0 (8 * (len / 128))
      (4 * (len / 64 % 2) + (2 * (len / 32 % 2) + len / 16 % 2))
    rw [Nat.zero_add] at this
    rw [this]
    congr 1
    omega
  rw [e2, e3]
  exact ⟨_, _, rfl, trivial⟩

/-! ## The tail switch -/

theorem bytes_at_length (data : List Nat) (v n : Nat) (h : v + n ≤ data.length) :
    (bytes_at data v n).length = n := by
  unfold bytes_at
  rw [List.length_take, List.length_drop]
  omega

theorem bytes_at_split (data : List Nat) (v m n : Nat) :
    bytes_at data v (m + n) = bytes_at data v m ++ bytes_at data (v + m) n := by
  unfold bytes_at
  rw [List.take_add, List.drop_drop]

theorem words64_last (bs : List Nat) (h1 : 0 < bs.length) (h2 : bs.length ≤ 8) :
    words64 bs = [le_bytes bs] := by
  match bs, h1, h2 with
  | [_], _, _ => rfl
  | [_, _], _, _ => rfl
  | [_, _, _], _, _ => rfl
  | [_, _, _, _], _, _ => rfl
  | [_, _, _, _, _], _, _ => rfl
  | [_, _, _, _, _, _], _, _ => rfl
  | [_, _, _, _, _, _, _], _, _ => rfl
  | [_, _, _, _, _, _, _, _], _, _ => rfl
  | _ :: _ :: _ :: _ :: _ :: _ :: _ :: _ :: _ :: _, _, h =>
    simp only [List.length_cons] at h
    omega

theorem words64_cons (hd tl : List Nat) (h : hd.length = 8) :
    words64 (hd ++ tl) = le_bytes hd :: words64 tl := by
  match hd, h with
  | [_, _, _, _, _, _, _, _], _ => rfl

theorem words64_bytes_at_last (data : List Nat) (v r : Nat) (h : v + r ≤ data.length)
    (h1 : 0 < r) (h2 : r ≤ 8) : words64 (bytes_at data v r) = [le_bytes (bytes_at data v r)] := by
  apply words64_last
  · rw [bytes_at_length data v r h]; exact h1
  · rw [bytes_at_length data v r h]; exact h2

theorem words64_bytes_at (data : List Nat) (v r : Nat) (h : v + r ≤ data.length) (h8 : 8 ≤ r) :
    words64 (bytes_at data v r)
      = le_bytes (bytes_at data v 8) :: words64 (bytes_at data (v + 8) (r - 8)) := by
  have e : r = 8 + (r - 8) := by omega
  conv => lhs; rw [e, bytes_at_split]
  exact words64_cons _ _ (bytes_at_length data v 8 (by omega))

/-- The last label of the tail switch, on the `n = (len - 1) % 8 + 1` bytes at `v`. -/
theorem tail_case_8_spec (data : List Nat) (v len a b : Nat) (hl : 0 < len)
    (h : v + ((len - 1) % 8 + 1) ≤ data.length) :
    tail_case_8 data v len a b
      = some (tailFinish a b (data.drop v) ((len - 1) % 8 + 1),
          [⟨v, (len - 1) % 8 + 1⟩]) := by
  unfold tail_case_8 tail_case_0
  rw [tail64_ok data v len hl h]
  simp only [rd_bind_def, rd_bind_some, rd_pure_def, Option.map_some', List.append_nil]
  unfold tailFinish
  have hw := words64_bytes_at_last data v ((len - 1) % 8 + 1) h (by omega) (by omega)
  unfold bytes_at at hw
  rw [hw]
  simp [mix_words, tail_prime, bytes_at]

theorem tail_case_16_spec (data : List Nat) (v len a b : Nat) (hl : 0 < len)
    (h : v + 8 + ((len - 1) % 8 + 1) ≤ data.length) :
    tail_case_16 data v len a b
      = some (tailFinish a b (data.drop v) (8 + ((len - 1) % 8 + 1)),
          [⟨v, 8⟩, ⟨v + 8, (len - 1) % 8 + 1⟩]) := by
  unfold tail_case_16 tail_case_8 tail_case_0
  rw [fetch64_ok data v (by omega), tail64_ok data (v + 8) len hl h]
  simp only [rd_bind_def, rd_bind_some, rd_pure_def, Option.map_some', List.append_nil,
    List.singleton_append]
  unfold tailFinish
  have hw := words64_bytes_at data v (8 + ((len - 1) % 8 + 1)) (by omega) (by omega)
  rw [Nat.add_sub_cancel_left,
    words64_bytes_at_last data (v + 8) ((len - 1) % 8 + 1) h (by omega) (by omega)] at hw
  unfold bytes_at at hw
  rw [hw]
  simp [mix_words, tail_prime, bytes_at]

theorem tail_case_24_spec (data : List Nat) (v len a b : Nat) (hl : 0 < len)
    (h : v + 16 + ((len - 1) % 8 + 1) ≤ data.length) :
    tail_case_24 data v len a b
      = some (tailFinish a b (data.drop v) (16 + ((len - 1) % 8 + 1)),
          [⟨v, 8⟩, ⟨v + 8, 8⟩, ⟨v + 16, (len - 1) % 8 + 1⟩]) := by
  unfold tail_case_24 tail_case_16 tail_case_8 tail_case_0
  rw [fetch64_ok data v (by omega), fetch64_ok data (v + 8) (by omega),
    tail64_ok data (v + 8 + 8) len hl (by omega)]
  simp only [rd_bind_def, rd_bind_some, rd_pure_def, Option.map_some', List.append_nil,
    List.singleton_append, List.cons_append, List.nil_append]
  unfold tailFinish
  have hw := words64_bytes_at data v (16 + ((len - 1) % 8 + 1)) (by omega) (by omega)
  have e1 : 16 + ((len - 1) % 8 + 1) - 8 = 8 + ((len - 1) % 8 + 1) := by omega
  rw [e1, words64_bytes_at data (v + 8) (8 + ((len - 1) % 8 + 1)) (by omega) (by omega),
    Nat.add_sub_cancel_left,
    words64_bytes_at_last data (v + 8 + 8) ((len - 1) % 8 + 1) (by omega) (by omega)
      (by omega)] at hw
  unfold bytes_at at hw
  rw [hw]
  simp [mix_words, tail_prime, bytes_at, Nat.add_assoc]

theorem tail_default_spec (data : List Nat) (v len a b : Nat) (hl : 0 < len)
    (h : v + 24 + ((len - 1) % 8 + 1) ≤ data.length) :
    tail_default data v len a b
      = some (tailFinish a b (data.drop v) (24 + ((len - 1) % 8 + 1)),
          [⟨v, 8⟩, ⟨v + 8, 8⟩, ⟨v + 16, 8⟩, ⟨v + 24, (len - 1) % 8 + 1⟩]) := by
  unfold tail_default tail_case_24 tail_case_16 tail_case_8 tail_case_0
  rw [fetch64_ok data v (by omega), fetch64_ok data (v + 8) (by omega),
    fetch64_ok data (v + 8 + 8) (by omega), tail64_ok data (v + 8 + 8 + 8) len hl (by omega)]
  simp only [rd_bind_def, rd_bind_some, rd_pure_def, Option.map_some', List.append_nil,
    List.singleton_append, List.cons_append, List.nil_append]
  unfold tailFinish
  have hw := words64_bytes_at data v (24 + ((len - 1) % 8 + 1)) (by omega) (by omega)
  have e1 : 24 + ((len - 1) % 8 + 1) - 8 = 16 + ((len - 1) % 8 + 1) := by omega
  have e2 : 16 + ((len - 1) % 8 + 1) - 8 = 8 + ((len - 1) % 8 + 1) := by omega
  rw [e1, words64_bytes_at data (v + 8) (16 + ((len - 1) % 8 + 1)) (by omega) (by omega),
    e2, words64_bytes_at data (v + 8 + 8) (8 + ((len - 1) % 8 + 1)) (by omega) (by omega),
    Nat.add_sub_cancel_left,
    words64_bytes_at_last data (v + 8 + 8 + 8) ((len - 1) % 8 + 1) (by omega) (by omega)
      (by omega)] at hw
  unfold bytes_at at hw
  rw [hw]
  simp [mix_words, tail_prime, bytes_at, Nat.add_assoc]

/-- The tail switch entered with `r ≤ 32` remaining bytes that are all readable: it succeeds with
the scalar tail of the specification, and loads exactly the `r` bytes at `v`, word by word. -/
theorem tail_switch_spec (data : List Nat) (v r a b : Nat) (hr : r ≤ 32)
    (h : v + r ≤ data.length) :
    tail_switch data v r a b = some (tailFinish a b (data.drop v) r, tail_log v r) := by
  unfold tail_switch
  by_cases h0 : r = 0
  · subst h0
    rw [if_pos rfl]
    simp [tail_case_0, rd_pure_def, tailFinish, words64, mix_words, tail_log]
  · rw [if_neg h0]
    by_cases h1 : 1 ≤ r ∧ r ≤ 8
    · rw [if_pos h1]
      have e : (r - 1) % 8 + 1 = r := by omega
      have e' : (r - 1) / 8 = 0 := by omega
      rw [tail_case_8_spec data v r a b (by omega) (by omega), e]
      simp [tail_log, h0, e, e']
    · rw [if_neg h1]
      by_cases h2 : 9 ≤ r ∧ r ≤ 16
      · rw [if_pos h2]
        have e : 8 + ((r - 1) % 8 + 1) = r := by omega
        have e' : (r - 1) / 8 = 1 := by omega
        rw [tail_case_16_spec data v r a b (by omega) (by omega), e]
        simp [tail_log, h0, e', List.range_succ]
      · rw [if_neg h2]
        by_cases h3 : 17 ≤ r ∧ r ≤ 24
        · rw [if_pos h3]
          have e : 16 + ((r - 1) % 8 + 1) = r := by omega
          have e' : (r - 1) / 8 = 2 := by omega
          rw [tail_case_24_spec data v r a b (by omega) (by omega), e]
          simp [tail_log, h0, e', List.range_succ]
        · rw [if_neg h3]
          have e : 24 + ((r - 1) % 8 + 1) = r := by omega
          have e' : (r - 1) / 8 = 3 := by omega
          rw [tail_default_spec data v r a b (by omega) (by omega), e]
          simp [tail_log, h0, e', List.range_succ]

theorem bulk_loop_short_fuel (data : List Nat) (len : Nat) (hlen : len ≤ data.length) :
    ∀ (fuel j : Nat) (x y : M128), fuel + j ≤ len / 128 →
      bulk_loop data len fuel (128 * j) x y = none := by
  intro fuel
  induction fuel with
  | zero => intro j x y _; rfl
  | succ fuel ih =>
    intro j x y h
    simp only [bulk_loop]
    have hc : ((128 * j : Nat) : Int) < (len : Int) - 127 := by omega
    rw [if_pos hc]
    rw [loadu_ok data _ (by omega), loadu_ok data _ (by omega), loadu_ok data _ (by omega),
      loadu_ok data _ (by omega), loadu_ok data _ (by omega), loadu_ok data _ (by omega),
      loadu_ok data _ (by omega), loadu_ok data _ (by omega)]
    simp only [rd_bind_def, rd_bind_some]
    have e : 128 * j + 16 * 8 = 128 * (j + 1) := by omega
    rw [e, ih (j + 1) _ _ (by omega)]
    rfl

theorem tail_switch_take (data : List Nat) (len v r a b : Nat) (hlen : len ≤ data.length)
    (hr : r ≤ 32) (h : v + r ≤ len) :
    tail_switch (data.take len) v r a b = tail_switch data v r a b := by
  rw [tail_switch_spec data v r a b hr (by omega),
    tail_switch_spec (data.take len) v r a b hr
      (by rw [List.length_take, Nat.min_eq_left hlen]; exact h)]
  have e : tailFinish a b ((data.take len).drop v) r = tailFinish a b (data.drop v) r := by
    unfold tailFinish
    have := bytes_at_take data len v r h
    unfold bytes_at at this
    rw [this]
  rw [e]

/-- The whole function on a buffer with at least `len` readable bytes. -/
theorem neon_spec (data : List Nat) (len seed : Nat) (hlen : len ≤ data.length) :
    (len ≤ 32 →
      t1ha0_arm64aes_neon data len seed = some (tailFinish seed len data len, tail_log 0 len)) ∧
    (32 < len → ∃ lo hi,
      bulk data len seed len = some ((len - len % 16, len % 16, lo, hi), block_log 0 (len / 16)) ∧
      t1ha0_arm64aes_neon data len seed
        = some (tailFinish lo hi (data.drop (len - len % 16)) (len % 16),
            block_log 0 (len / 16) ++ tail_log (len - len % 16) (len % 16))) := by
  constructor
  · intro h
    unfold t1ha0_arm64aes_neon
    have hn : ¬ len > 32 := by omega
    simp only [rd_bind_def, if_neg hn, rd_pure_def, rd_bind_some, List.nil_append]
    rw [tail_switch_spec data 0 len seed len h (by omega)]
    simp
  · intro h
    obtain ⟨lo, hi, hb, -⟩ := bulk_spec data len seed len hlen
    refine ⟨lo, hi, hb, ?_⟩
    unfold t1ha0_arm64aes_neon
    have hp : len > 32 := h
    simp only [rd_bind_def, if_pos hp, hb, rd_bind_some]
    rw [tail_switch_spec data (len - len % 16) (len % 16) lo hi (by omega) (by omega)]
    rfl

theorem neon_take (data : List Nat) (len seed : Nat) (hlen : len ≤ data.length) :
    t1ha0_arm64aes_neon (data.take len) len seed = t1ha0_arm64aes_neon data len seed := by
  unfold t1ha0_arm64aes_neon
  simp only [rd_bind_def]
  by_cases h : len > 32
  · simp only [if_pos h]
    obtain ⟨lo, hi, hb, ht⟩ := bulk_spec data len seed len hlen
    rw [ht, hb]
    simp only [rd_bind_some]
    rw [tail_switch_take data len _ _ lo hi hlen (by omega) (by omega)]
  · simp only [if_neg h, rd_pure_def, rd_bind_some]
    rw [tail_switch_take data len _ _ seed len hlen (by omega) (by omega)]

theorem mem_tail_log (v r : Nat) (a : Access) (h : a ∈ tail_log v r) :
    v ≤ a.off ∧ a.off + a.width ≤ v + r := by
  unfold tail_log at h
  by_cases h0 : r = 0
  · rw [if_pos h0] at h
    exact absurd h (List.not_mem_nil a)
  · rw [if_neg h0, List.mem_append] at h
    rcases h with h | h
    · rw [List.mem_map] at h
      obtain ⟨k, hk, rfl⟩ := h
      rw [List.mem_range] at hk
      constructor <;> simp only [] <;> omega
    · rw [List.mem_singleton] at h
      subst h
      constructor <;> simp only [] <;> omega

theorem bulk_chain (data : List Nat) (len a b : Nat) (hlen : len ≤ data.length) :
    ∃ x1 y1 x2 y2 x3 y3 x4 y4,
      (∀ fuel, len / 128 < fuel →
        bulk_loop data len fuel 0 (_mm_set_epi64x a b)
            (_mm_aesenc_si128 (_mm_set_epi64x a b) (_mm_set_epi64x prime_5 prime_6))
          = some ((128 * (len / 128), x1, y1), block_log 0 (8 * (len / 128)))) ∧
      bulk_64 data len (128 * (len / 128)) x1 y1
        = some ((128 * (len / 128) + (len &&& 64), x2, y2),
            block_log (8 * (len / 128)) ((len &&& 64) / 16)) ∧
      bulk_32 data len (128 * (len / 128) + (len &&& 64)) x2 y2
        = some ((128 * (len / 128) + (len &&& 64) + (len &&& 32), x3, y3),
            block_log (8 * (len / 128) + (len &&& 64) / 16) ((len &&& 32) / 16)) ∧
      bulk_16 data len (128 * (len / 128) + (len &&& 64) + (len &&& 32)) x3 y3
        = some ((128 * (len / 128) + (len &&& 64) + (len &&& 32) + (len &&& 16), x4, y4),
            block_log (8 * (len / 128) + (len &&& 64) / 16 + (len &&& 32) / 16)
              ((len &&& 16) / 16)) ∧
      bulk data len a b
        = some ((len - len % 16, len % 16, _mm_extract_epi64 (bulk_fold x4 y4) 0,
            _mm_extract_epi64 (bulk_fold x4 y4) 1), block_log 0 (len / 16)) := by
  obtain ⟨x1, y1, hloop⟩ := bulk_loop_spec data len hlen (len / 128) 0
    (_mm_set_epi64x a b) (_mm_aesenc_si128 (_mm_set_epi64x a b) (_mm_set_epi64x prime_5 prime_6))
    (by omega)
  rw [Nat.mul_zero] at hloop
  have h1 := hloop (len + 1) (by omega)
  obtain ⟨x2, y2, h2⟩ := bulk_64_spec data len (8 * (len / 128)) x1 y1 (by omega)
  obtain ⟨x3, y3, h3⟩ := bulk_32_spec data len (8 * (len / 128) + 4 * (len / 64 % 2)) x2 y2
    (by omega)
  obtain ⟨x4, y4, h4⟩ := bulk_16_spec data len
    (8 * (len / 128) + 4 * (len / 64 % 2) + 2 * (len / 32 % 2)) x3 y3 (by omega)
  have a64 : (len &&& 64) = 64 * (len / 64 % 2) := and_64 len
  have a32 : (len &&& 32) = 32 * (len / 32 % 2) := and_32 len
  have a16 : (len &&& 16) = 16 * (len / 16 % 2) := and_16 len
  have p1 : 128 * (len / 128) = 16 * (8 * (len / 128)) := by omega
  have p2 : 128 * (len / 128) + (len &&& 64)
      = 16 * (8 * (len / 128) + 4 * (len / 64 % 2)) := by omega
  have p3 : 128 * (len / 128) + (len &&& 64) + (len &&& 32)
      = 16 * (8 * (len / 128) + 4 * (len / 64 % 2) + 2 * (len / 32 % 2)) := by omega
  have p4 : 128 * (len / 128) + (len &&& 64) + (len &&& 32) + (len &&& 16)
      = 16 * (8 * (len / 128) + 4 * (len / 64 % 2) + 2 * (len / 32 % 2) + len / 16 % 2) := by
    omega
  have q64 : (len &&& 64) / 16 = 4 * (len / 64 % 2) := by omega
  have q32 : (len &&& 32) / 16 = 2 * (len / 32 % 2) := by omega
  have q16 : (len &&& 16) / 16 = len / 16 % 2 := by omega
  have g2 : bulk_64 data len (128 * (len / 128)) x1 y1
      = some ((128 * (len / 128) + (len &&& 64), x2, y2),
          block_log (8 * (len / 128)) ((len &&& 64) / 16)) := by
    rw [p2, q64, p1]; exact h2
  have g3 : bulk_32 data len (128 * (len / 128) + (len &&& 64)) x2 y2
      = some ((128 * (len / 128) + (len &&& 64) + (len &&& 32), x3, y3),
          block_log (8 * (len / 128) + (len &&& 64) / 16) ((len &&& 32) / 16)) := by
    rw [p3, q64, q32, p2]; exact h3
  have g4 : bulk_16 data len (128 * (len / 128) + (len &&& 64) + (len &&& 32)) x3 y3
      = some ((128 * (len / 128) + (len &&& 64) + (len &&& 32) + (len &&& 16), x4, y4),
          block_log (8 * (len / 128) + (len &&& 64) / 16 + (len &&& 32) / 16)
            ((len &&& 16) / 16)) := by
    rw [p4, q64, q32, q16, p3]; exact h4
  refine ⟨x1, y1, x2, y2, x3, y3, x4, y4, hloop, g2, g3, g4, ?_⟩
  unfold bulk
  simp only [rd_bind_def, h1, rd_bind_some, g2, g3, g4, rd_pure_def, Option.map_some',
    List.append_nil, and_15]
  have e2 : 128 * (len / 128) + (len &&& 64) + (len &&& 32) + (len &&& 16) = len - len % 16 := by
    omega
  have e3 : block_log 0 (8 * (len / 128)) ++
      (block_log (8 * (len / 128)) ((len &&& 64) / 16) ++
        (block_log (8 * (len / 128) + (len &&& 64) / 16) ((len &&& 32) / 16) ++
          block_log (8 * (len / 128) + (len &&& 64) / 16 + (len &&& 32) / 16)
            ((len &&& 16) / 16))) = block_log 0 (len / 16) := by
    rw [block_log_append, block_log_append]
    have := block_log_append 0 (8 * (len / 128))
      ((len &&& 64) / 16 + ((len &&& 32) / 16 + (len &&& 16) / 16))
    rw [Nat.zero_add] at this
    rw [this]
    congr 1
    omega
  rw [e2, e3]

/-- The accumulation part of the wide-accumulator phase (lines 57-109): the pair `(x, y)` on
which line 111 operates, with the offset reached and the loads made. -/
theorem bulk_acc_spec (data : List Nat) (len a b : Nat) (hlen : len ≤ data.length) :
    ∃ x y : M128,
      (do
        let (v, x, y) ← bulk_loop data len (len + 1) 0 (_mm_set_epi64x a b)
          (_mm_aesenc_si128 (_mm_set_epi64x a b) (_mm_set_epi64x prime_5 prime_6))
        let (v, x, y) ← bulk_64 data len v x y
        let (v, x, y) ← bulk_32 data len v x y
        bulk_16 data len v x y : Rd (Nat × M128 × M128))
        = some ((len - len % 16, x, y), block_log 0 (len / 16)) ∧
      bulk data len a b
        = some ((len - len % 16, len % 16, _mm_extract_epi64 (bulk_fold x y) 0,
            _mm_extract_epi64 (bulk_fold x y) 1), block_log 0 (len / 16)) := by
  obtain ⟨x1, y1, x2, y2, x3, y3, x4, y4, h1, g2, g3, g4, hb⟩ := bulk_chain data len a b hlen
  refine ⟨x4, y4, ?_, hb⟩
  simp only [rd_bind_def, h1 (len + 1) (by omega), rd_bind_some, g2, g3, g4, Option.map_some']
  have e2 : 128 * (len / 128) + (len &&& 64) + (len &&& 32) + (len &&& 16) = len - len % 16 := by
    have a64 : (len &&& 64) = 64 * (len / 64 % 2) := and_64 len
    have a32 : (len &&& 32) = 32 * (len / 32 % 2) := and_32 len
    have a16 : (len &&& 16) = 16 * (len / 16 % 2) := and_16 len
    omega
  have e3 : block_log 0 (8 * (len / 128)) ++
      (block_log (8 * (len / 128)) ((len &&& 64) / 16) ++
        (block_log (8 * (len / 128) + (len &&& 64) / 16) ((len &&& 32) / 16) ++
          block_log (8 * (len / 128) + (len &&& 64) / 16 + (len &&& 32) / 16)
            ((len &&& 16) / 16))) = block_log 0 (len / 16) := by
    have a64 : (len &&& 64) = 64 * (len / 64 % 2) := and_64 len
    have a32 : (len &&& 32) = 32 * (len / 32 % 2) := and_32 len
    have a16 : (len &&& 16) = 16 * (len / 16 % 2) := and_16 len
    rw [block_log_append, block_log_append]
    have := block_log_append 0 (8 * (len / 128))
      ((len &&& 64) / 16 + ((len &&& 32) / 16 + (len &&& 16) / 16))
    rw [Nat.zero_add] at this
    rw [this]
    congr 1
    omega
  rw [e2, e3]

/-! ## The aggregate self-check -/

theorem nat_lor_eq_zero (m n : Nat) : m ||| n = 0 ↔ m = 0 ∧ n = 0 := by
  constructor
  · intro h
    have hb : ∀ i, (m.testBit i || n.testBit i) = false := by
      intro i
      rw [← Nat.testBit_or, h, Nat.zero_testBit]
    constructor
    · apply Nat.eq_of_testBit_eq
      intro i
      have := hb i
      simp only [Bool.or_eq_false_iff] at this
      simp [this.1]
    · apply Nat.eq_of_testBit_eq
      intro i
      have := hb i
      simp only [Bool.or_eq_false_iff] at this
      simp [this.2]
  · rintro ⟨rfl, rfl⟩
    rfl

theorem int_lor_eq_zero (a b : Int) : Int.lor a b = 0 ↔ a = 0 ∧ b = 0 := by
  cases a with
  | ofNat m =>
    cases b with
    | ofNat n =>
      show ((m ||| n : Nat) : Int) = 0 ↔ _
      rw [Int.natCast_eq_zero, nat_lor_eq_zero]
      simp
    | negSucc n =>
      show Int.negSucc _ = 0 ↔ _
      simp
  | negSucc m =>
    cases b with
    | ofNat n =>
      show Int.negSucc _ = 0 ↔ _
      simp
    | negSucc n =>
      show Int.negSucc _ = 0 ↔ _
      simp

theorem int_zero_lor (a : Int) : Int.lor 0 a = a := by
  cases a with
  | ofNat n =>
    show ((0 ||| n : Nat) : Int) = _
    simp
  | negSucc n =>
    show Int.negSucc (Nat.ldiff n 0) = _
    congr 1
    apply Nat.eq_of_testBit_eq
    intro i
    simp [Nat.testBit_ldiff]

theorem agg_sound_call (check : Variant → Int) (s : Agg) (v : Variant) (h : Agg.sound check s) :
    Agg.sound check (s.call check v) := by
  unfold Agg.sound at *
  simp [Agg.call, List.foldl_append, h]

theorem foldl_lor_eq_zero (l : List Int) (a : Int) :
    l.foldl Int.lor a = 0 ↔ a = 0 ∧ ∀ x ∈ l, x = 0 := by
  induction l generalizing a with
  | nil => simp
  | cons x xs ih =>
    simp only [List.foldl_cons, ih, int_lor_eq_zero, List.mem_cons, forall_eq_or_imp]
    tauto

theorem selfcheck_sound (cfg : Build) (features : Features) (check : Variant → Int) :
    Agg.sound check (t1ha_selfcheck__t1ha0 cfg features check) := by
  have h0 : Agg.sound check
      ⟨Int.lor (check .t1ha0_32le) (check .t1ha0_32be), [.t1ha0_32le, .t1ha0_32be]⟩ := by
    simp [Agg.sound, int_zero_lor]
  unfold t1ha_selfcheck__t1ha0
  simp only []
  repeat' split
  all_goals repeat (first | exact h0 | apply agg_sound_call)

/-! ## The words of the tail -/

theorem le_bytes_append_zeros (bs : List Nat) (n : Nat) :
    le_bytes (bs ++ List.replicate n 0) = le_bytes bs := by
  induction bs with
  | nil =>
    induction n with
    | zero => rfl
    | succ n ih =>
      simp only [List.nil_append] at ih
      simp [List.replicate_succ, le_bytes, ih]
  | cons b bs ih => simp [le_bytes, ih]

/-- A complete word of the padded tail is the 8 bytes of the buffer at its place. -/
theorem tail_word_full (data : List Nat) (v r k : Nat) (h : v + r ≤ data.length)
    (hk : 8 * k + 8 ≤ r) : tail_word data v r k = le_bytes (bytes_at data (v + 8 * k) 8) := by
  unfold tail_word
  congr 1
  have hl := bytes_at_length data v r h
  unfold bytes_at at *
  rw [List.drop_append_of_le_length (by omega), List.take_append_of_le_length
    (by rw [List.length_drop]; omega)]
  rw [List.drop_take, List.take_take, List.drop_drop]
  congr 1
  omega

/-- The last word of the padded tail is made of the `r - 8 * k` last bytes. -/
theorem tail_word_last (data : List Nat) (v r k : Nat) (h : v + r ≤ data.length)
    (hk : 8 * k < r) (hk' : r ≤ 8 * k + 8) :
    tail_word data v r k = le_bytes (bytes_at data (v + 8 * k) (r - 8 * k)) := by
  unfold tail_word
  have hl := bytes_at_length data v r h
  have e : bytes_at (bytes_at data v r ++ List.replicate (8 * ((r + 7) / 8) - r) 0) (8 * k) 8
      = bytes_at data (v + 8 * k) (r - 8 * k) ++ List.replicate (8 * k + 8 - r) 0 := by
    unfold bytes_at at *
    rw [List.drop_append_of_le_length (by omega), List.take_append_eq_append_take]
    rw [List.drop_take, List.drop_drop, List.length_take, List.length_drop,
      List.take_of_length_le (by rw [List.length_take, List.length_drop]; omega)]
    have e1 : 8 - min (r - 8 * k) (data.length - (v + 8 * k)) = 8 * k + 8 - r := by omega
    rw [e1, List.take_replicate]
    congr 2
    omega
  rw [e, le_bytes_append_zeros]

/-! ## The tail reader behind a contract -/

theorem tail_switch_with_reader (data : List Nat) (v len a b : Nat) :
    tail_switch_with tail64_le_unaligned data v len a b = tail_switch data v len a b := rfl

theorem neon_with_reader (data : List Nat) (len seed : Nat) :
    t1ha0_arm64aes_neon_with tail64_le_unaligned data len seed
      = t1ha0_arm64aes_neon data len seed := rfl

/-- The tail switch depends on the reader only through its calls with the switch operand as
length argument. -/
theorem tail_switch_with_congr (t1 t2 : List Nat → Nat → Nat → Rd Nat) (data : List Nat)
    (v len a b : Nat) (h : ∀ v', t1 data v' len = t2 data v' len) :
    tail_switch_with t1 data v len a b = tail_switch_with t2 data v len a b := by
  unfold tail_switch_with tail_default_with tail_case_24_with tail_case_16_with tail_case_8_with
  simp only [h]

/-- A reader that fails on the switch operand makes the tail switch fail as soon as at least one
byte entered it: every label but `case 0` reaches the call on line 151. -/
theorem tail_switch_with_fails (t : List Nat → Nat → Nat → Rd Nat) (data : List Nat)
    (v r a b : Nat) (hr0 : 1 ≤ r) (hr : r ≤ 32) (h : v + r ≤ data.length)
    (ht : ∀ v', t data v' r = none) :
    tail_switch_with t data v r a b = none := by
  unfold tail_switch_with tail_default_with tail_case_24_with tail_case_16_with tail_case_8_with
  rw [if_neg (show ¬ r = 0 by omega)]
  by_cases h1 : 1 ≤ r ∧ r ≤ 8
  · rw [if_pos h1]
    simp only [rd_bind_def, ht]
    rfl
  · rw [if_neg h1]
    by_cases h2 : 9 ≤ r ∧ r ≤ 16
    · rw [if_pos h2, fetch64_ok data v (by omega)]
      simp only [rd_bind_def, rd_bind_some, ht]
      rfl
    · rw [if_neg h2]
      by_cases h3 : 17 ≤ r ∧ r ≤ 24
      · rw [if_pos h3, fetch64_ok data v (by omega), fetch64_ok data (v + 8) (by omega)]
        simp only [rd_bind_def, rd_bind_some, ht]
        rfl
      · rw [if_neg h3, fetch64_ok data v (by omega), fetch64_ok data (v + 8) (by omega),
          fetch64_ok data (v + 8 + 8) (by omega)]
        simp only [rd_bind_def, rd_bind_some, ht]
        rfl

/-- The run with a contract-checked tail reader, on a buffer with at least `len` readable bytes:
it is the plain run when no byte enters the tail switch or when the number of bytes that enter
it is inside the contract, and it fails otherwise.  So the reader is called exactly when
`tail_count len ≥ 1`, and its length argument is `tail_count len`. -/
theorem neon_with_contract (lo hi : Nat) (data : List Nat) (len seed : Nat)
    (hlen : len ≤ data.length) :
    ((tail_count len = 0 ∨ (lo ≤ tail_count len ∧ tail_count len ≤ hi)) →
      t1ha0_arm64aes_neon_with (tail64_within lo hi) data len seed
        = t1ha0_arm64aes_neon data len seed) ∧
    ((1 ≤ tail_count len ∧ ¬ (lo ≤ tail_count len ∧ tail_count len ≤ hi)) →
      t1ha0_arm64aes_neon_with (tail64_within lo hi) data len seed = none) := by
  by_cases hb : len > 32
  · have hc : tail_count len = len % 16 := by
      unfold tail_count
      rw [if_pos hb, and_15]
    obtain ⟨x, y, hbulk, -⟩ := bulk_spec data len seed len hlen
    rw [hc]
    constructor
    · intro h
      unfold t1ha0_arm64aes_neon_with t1ha0_arm64aes_neon
      simp only [rd_bind_def, if_pos hb, hbulk, rd_bind_some]
      rcases h with h | h
      · rw [h]
        rfl
      · rw [tail_switch_with_congr (tail64_within lo hi) tail64_le_unaligned data _ _ x y
          (fun v' => if_pos h)]
        rfl
    · intro h
      unfold t1ha0_arm64aes_neon_with
      simp only [rd_bind_def, if_pos hb, hbulk, rd_bind_some]
      rw [tail_switch_with_fails (tail64_within lo hi) data _ _ x y h.1 (by omega) (by omega)
        (fun v' => if_neg h.2)]
      rfl
  · have hc : tail_count len = len := by
      unfold tail_count
      rw [if_neg hb]
    rw [hc]
    constructor
    · intro h
      unfold t1ha0_arm64aes_neon_with t1ha0_arm64aes_neon
      simp only [rd_bind_def, if_neg hb, rd_pure_def, rd_bind_some]
      rcases h with h | h
      · subst h
        rfl
      · rw [tail_switch_with_congr (tail64_within lo hi) tail64_le_unaligned data _ _ seed len
          (fun v' => if_pos h)]
        rfl
    · intro h
      unfold t1ha0_arm64aes_neon_with
      simp only [rd_bind_def, if_neg hb, rd_pure_def, rd_bind_some]
      rw [tail_switch_with_fails (tail64_within lo hi) data _ _ seed len h.1 (by omega)
        (by omega) (fun v' => if_neg h.2)]
      rfl

/-! # The claims about the structure of `t1ha0_arm64aes_neon` -/

/-- C3: for every seed and every memory behind `data`, the empty one included (no readable byte
at all), `t1ha0_arm64aes_neon(data, 0, seed)` performs no load (the log is empty: neither
`fetch64_le_unaligned` nor `tail64_le_unaligned` nor a 16-byte load is reached) and returns
`final64(seed, 0)`, which depends on the seed only. -/
theorem neon_zero_length (data : List Nat) (seed : Nat) :
    t1ha0_arm64aes_neon data 0 seed = some (final64 seed 0, []) := by
  unfold t1ha0_arm64aes_neon tail_switch tail_case_0
  simp [rd_bind_def, rd_pure_def, rd_bind_some]

/-- C4: two buffers that agree on their first `len` bytes give the same run of
`t1ha0_arm64aes_neon` for every `len` and seed: the same digest (and the same loads), whatever
the bytes at offset `len` and beyond are; with the same buffer twice, the digest is the same. -/
theorem neon_pure_in_prefix (d1 d2 : List Nat) (len seed : Nat)
    (h : d1.take len = d2.take len) :
    t1ha0_arm64aes_neon d1 len seed = t1ha0_arm64aes_neon d2 len seed := by
  by_cases h1 : len ≤ d1.length
  · by_cases h2 : len ≤ d2.length
    · rw [← neon_take d1 len seed h1, ← neon_take d2 len seed h2, h]
    · have e2 : d2.take len = d2 := List.take_of_length_le (by omega)
      rw [e2] at h
      have hl := congrArg List.length h
      rw [List.length_take, Nat.min_eq_left h1] at hl
      omega
  · have e1 : d1.take len = d1 := List.take_of_length_le (by omega)
    rw [e1] at h
    by_cases h2 : len ≤ d2.length
    · have hl := congrArg List.length h
      rw [List.length_take, Nat.min_eq_left h2] at hl
      omega
    · have e2 : d2.take len = d2 := List.take_of_length_le (by omega)
      rw [e2] at h
      rw [h]

/-- C4 on two buffers that share their first 3 bytes and differ afterwards. -/
theorem neon_pure_in_prefix_witness :
    t1ha0_arm64aes_neon [1, 2, 3, 9] 3 5 = t1ha0_arm64aes_neon [1, 2, 3, 7, 7] 3 5 :=
  neon_pure_in_prefix [1, 2, 3, 9] [1, 2, 3, 7, 7] 3 5 (by decide)

/-- C5: on a buffer of exactly `len` readable bytes the bounds-checked run never fails: it
returns a digest, and every load it performed (16-byte bulk loads, `fetch64_le_unaligned`,
`tail64_le_unaligned`) lies inside `[0, len)`. -/
theorem neon_reads_in_bounds (data : List Nat) (len seed : Nat) (hlen : data.length = len) :
    ∃ digest log, t1ha0_arm64aes_neon data len seed = some (digest, log) ∧
      ∀ a ∈ log, 0 < a.width ∧ a.off + a.width ≤ len := by
  have hle : len ≤ data.length := by omega
  obtain ⟨hs, hb⟩ := neon_spec data len seed hle
  have htail : ∀ v r (a : Access), a ∈ tail_log v r → 0 < a.width := by
    intro v r a ha
    unfold tail_log at ha
    by_cases h0 : r = 0
    · rw [if_pos h0] at ha
      exact absurd ha (List.not_mem_nil a)
    · rw [if_neg h0, List.mem_append] at ha
      rcases ha with ha | ha
      · rw [List.mem_map] at ha
        obtain ⟨k, _, rfl⟩ := ha
        exact Nat.succ_pos 7
      · rw [List.mem_singleton] at ha
        subst ha
        exact Nat.succ_pos _
  by_cases h : len ≤ 32
  · refine ⟨_, _, hs h, ?_⟩
    intro a ha
    have := mem_tail_log 0 len a ha
    exact ⟨htail _ _ a ha, by omega⟩
  · obtain ⟨lo, hi, _, hrun⟩ := hb (by omega)
    refine ⟨_, _, hrun, ?_⟩
    intro a ha
    rw [List.mem_append] at ha
    rcases ha with ha | ha
    · have := mem_block_log 0 (len / 16) a ha
      constructor <;> omega
    · have := mem_tail_log _ _ a ha
      exact ⟨htail _ _ a ha, by omega⟩

/-- C5 on a 3-byte buffer. -/
theorem neon_reads_in_bounds_witness :
    ∃ digest log, t1ha0_arm64aes_neon [1, 2, 3] 3 5 = some (digest, log) ∧
      ∀ a ∈ log, 0 < a.width ∧ a.off + a.width ≤ 3 :=
  neon_reads_in_bounds [1, 2, 3] 3 5 (by decide)

/-- C9: on a buffer with at least `len` readable bytes.  For `len ≤ 32` the function is the tail
switch on `(seed, len)` at offset 0 and no 16-byte load is made.  For `len > 32` the 128-byte
loop runs `len / 128` times: it returns with any fuel that pays for `len / 128 + 1` tests of its
condition and with no less, and it ends at offset `128 * (len / 128)` after `8 * (len / 128)`
loads, always in the same state; the 64-, 32- and 16-byte sub-blocks
advance the pointer by `len & 64`, `len & 32` and `len & 16` bytes, each of which is zero or the
size of the sub-block; the loads of the whole phase are the `len / 16` leading 16-byte blocks in
ascending order, each once, that is `len - len % 16` bytes; and the tail switch is entered at
offset `len - len % 16` with `len % 16 < 16` bytes remaining. -/
theorem bulk_phase_greedy (data : List Nat) (len seed : Nat) (hlen : len ≤ data.length) :
    (len ≤ 32 → t1ha0_arm64aes_neon data len seed = tail_switch data 0 len seed len ∧
      ∀ log, (t1ha0_arm64aes_neon data len seed).log = some log → ∀ a ∈ log, a.width ≤ 8) ∧
    (32 < len → ∃ x1 y1 x2 y2 x3 y3 x4 y4,
      (∀ fuel, len / 128 < fuel →
        bulk_loop data len fuel 0 (_mm_set_epi64x seed len)
            (_mm_aesenc_si128 (_mm_set_epi64x seed len) (_mm_set_epi64x prime_5 prime_6))
          = some ((128 * (len / 128), x1, y1), block_log 0 (8 * (len / 128)))) ∧
      (∀ fuel, fuel ≤ len / 128 →
        bulk_loop data len fuel 0 (_mm_set_epi64x seed len)
            (_mm_aesenc_si128 (_mm_set_epi64x seed len) (_mm_set_epi64x prime_5 prime_6))
          = none) ∧
      bulk_64 data len (128 * (len / 128)) x1 y1
        = some ((128 * (len / 128) + (len &&& 64), x2, y2),
            block_log (8 * (len / 128)) ((len &&& 64) / 16)) ∧
      bulk_32 data len (128 * (len / 128) + (len &&& 64)) x2 y2
        = some ((128 * (len / 128) + (len &&& 64) + (len &&& 32), x3, y3),
            block_log (8 * (len / 128) + (len &&& 64) / 16) ((len &&& 32) / 16)) ∧
      bulk_16 data len (128 * (len / 128) + (len &&& 64) + (len &&& 32)) x3 y3
        = some ((128 * (len / 128) + (len &&& 64) + (len &&& 32) + (len &&& 16), x4, y4),
            block_log (8 * (len / 128) + (len &&& 64) / 16 + (len &&& 32) / 16)
              ((len &&& 16) / 16)) ∧
      (len &&& 64 = 0 ∨ len &&& 64 = 64) ∧ (len &&& 32 = 0 ∨ len &&& 32 = 32) ∧
      (len &&& 16 = 0 ∨ len &&& 16 = 16) ∧
      128 * (len / 128) + (len &&& 64) + (len &&& 32) + (len &&& 16) = len - len % 16 ∧
      bulk data len seed len
        = some ((len - len % 16, len % 16, _mm_extract_epi64 (bulk_fold x4 y4) 0,
            _mm_extract_epi64 (bulk_fold x4 y4) 1), block_log 0 (len / 16)) ∧
      (block_log 0 (len / 16)).length * 16 = len - len % 16 ∧
      len % 16 < 16 ∧
      t1ha0_arm64aes_neon data len seed
        = Option.map (fun r => (r.1, block_log 0 (len / 16) ++ r.2))
            (tail_switch data (len - len % 16) (len % 16)
              (_mm_extract_epi64 (bulk_fold x4 y4) 0) (_mm_extract_epi64 (bulk_fold x4 y4) 1))) := by
  constructor
  · intro h
    have hn : ¬ len > 32 := by omega
    have e : t1ha0_arm64aes_neon data len seed = tail_switch data 0 len seed len := by
      unfold t1ha0_arm64aes_neon
      simp only [rd_bind_def, if_neg hn, rd_pure_def, rd_bind_some, List.nil_append]
      cases tail_switch data 0 len seed len with
      | none => rfl
      | some r => rfl
    refine ⟨e, ?_⟩
    intro log hlog a ha
    rw [(neon_spec data len seed hlen).1 h] at hlog
    have hl : tail_log 0 len = log := by
      simpa [Rd.log] using hlog
    subst hl
    unfold tail_log at ha
    by_cases h0 : len = 0
    · rw [if_pos h0] at ha
      exact absurd ha (List.not_mem_nil a)
    · rw [if_neg h0, List.mem_append] at ha
      rcases ha with ha | ha
      · rw [List.mem_map] at ha
        obtain ⟨k, _, rfl⟩ := ha
        exact Nat.le_refl 8
      · rw [List.mem_singleton] at ha
        subst ha
        show (len - 1) % 8 + 1 ≤ 8
        omega
  · intro h
    obtain ⟨x1, y1, x2, y2, x3, y3, x4, y4, h1, h2, h3, h4, hb⟩ :=
      bulk_chain data len seed len hlen
    have hshort : ∀ fuel, fuel ≤ len / 128 →
        bulk_loop data len fuel 0 (_mm_set_epi64x seed len)
            (_mm_aesenc_si128 (_mm_set_epi64x seed len) (_mm_set_epi64x prime_5 prime_6))
          = none := by
      intro fuel hf
      have := bulk_loop_short_fuel data len hlen fuel 0 (_mm_set_epi64x seed len)
        (_mm_aesenc_si128 (_mm_set_epi64x seed len) (_mm_set_epi64x prime_5 prime_6))
        (by omega)
      rw [Nat.mul_zero] at this
      exact this
    have a64 : (len &&& 64) = 64 * (len / 64 % 2) := and_64 len
    have a32 : (len &&& 32) = 32 * (len / 32 % 2) := and_32 len
    have a16 : (len &&& 16) = 16 * (len / 16 % 2) := and_16 len
    refine ⟨x1, y1, x2, y2, x3, y3, x4, y4, h1, hshort, h2, h3, h4, by omega, by omega,
      by omega, by omega, hb, ?_, by omega, ?_⟩
    · unfold block_log
      rw [List.length_map, List.length_range']
      omega
    · unfold t1ha0_arm64aes_neon
      have hp : len > 32 := h
      simp only [rd_bind_def, if_pos hp, hb, rd_bind_some]

/-- C9 on a 200-byte buffer: one 128-byte block, then the 64-byte sub-block, no 32-byte and no
16-byte sub-block, and 8 bytes left for the tail switch. -/
theorem bulk_phase_greedy_witness :
    ∃ lo hi, bulk (List.replicate 200 7) 200 1 200
      = some ((192, 8, lo, hi), block_log 0 12) := by
  obtain ⟨_, _, _, _, _, _, x4, y4, _, _, _, _, _, _, _, _, _, hb, _⟩ :=
    (bulk_phase_greedy (List.replicate 200 7) 200 1 (List.length_replicate 200 7).ge).2 (by decide)
  exact ⟨_, _, hb⟩

/-- C10: on a buffer with at least `len` readable bytes, for `len ≤ 32` the run is the tail
switch on `(seed, len)` from offset 0 and its digest is the scalar tail and finish
`tailFinish seed len data len`.  For `len > 32`, with `(x, y)` the wide accumulator that lines
57-109 leave after loading the `len / 16` leading blocks, and `lo`, `hi` the low and the high
64-bit lane of the folded accumulator `_mm_add_epi64(_mm_aesdec_si128(x, _mm_aesenc_si128(y, x)),
y)` of line 111: the wide phase hands `(lo, hi)` and the `len % 16` bytes at offset
`len - len % 16` to the tail switch, the digest is that of the tail switch there and equals
`tailFinish lo hi (data + (len - len % 16)) (len % 16)`, with the loads of the tail after those
of the blocks; and when `len % 16 = 0` the run is `final64 lo hi` with the loads of the blocks
and no other. -/
theorem neon_tail_is_scalar (data : List Nat) (len seed : Nat) (hlen : len ≤ data.length) :
    (len ≤ 32 →
      t1ha0_arm64aes_neon data len seed = tail_switch data 0 len seed len ∧
      t1ha0_arm64aes_neon data len seed = some (tailFinish seed len data len, tail_log 0 len)) ∧
    (32 < len → ∃ (x y : M128) (lo hi : Nat),
      (do
        let (v, x, y) ← bulk_loop data len (len + 1) 0 (_mm_set_epi64x seed len)
          (_mm_aesenc_si128 (_mm_set_epi64x seed len) (_mm_set_epi64x prime_5 prime_6))
        let (v, x, y) ← bulk_64 data len v x y
        let (v, x, y) ← bulk_32 data len v x y
        bulk_16 data len v x y : Rd (Nat × M128 × M128))
        = some ((len - len % 16, x, y), block_log 0 (len / 16)) ∧
      _mm_add_epi64 (_mm_aesdec_si128 x (_mm_aesenc_si128 y x)) y = ⟨lo, hi⟩ ∧
      bulk data len seed len
        = some ((len - len % 16, len % 16, lo, hi), block_log 0 (len / 16)) ∧
      (t1ha0_arm64aes_neon data len seed).value
        = (tail_switch data (len - len % 16) (len % 16) lo hi).value ∧
      t1ha0_arm64aes_neon data len seed
        = some (tailFinish lo hi (data.drop (len - len % 16)) (len % 16),
            block_log 0 (len / 16) ++ tail_log (len - len % 16) (len % 16)) ∧
      (len % 16 = 0 →
        t1ha0_arm64aes_neon data len seed = some (final64 lo hi, block_log 0 (len / 16)))) := by
  constructor
  · intro h
    have ht := tail_switch_spec data 0 len seed len h (by omega)
    have hn := (neon_spec data len seed hlen).1 h
    rw [List.drop_zero] at ht
    exact ⟨hn.trans ht.symm, hn⟩
  · intro h
    obtain ⟨x, y, hacc, hb⟩ := bulk_acc_spec data len seed len hlen
    have hfold : _mm_add_epi64 (_mm_aesdec_si128 x (_mm_aesenc_si128 y x)) y
        = ⟨_mm_extract_epi64 (bulk_fold x y) 0, _mm_extract_epi64 (bulk_fold x y) 1⟩ := rfl
    have ht := tail_switch_spec data (len - len % 16) (len % 16)
      (_mm_extract_epi64 (bulk_fold x y) 0) (_mm_extract_epi64 (bulk_fold x y) 1)
      (by omega) (by omega)
    have hrun : t1ha0_arm64aes_neon data len seed
        = some (tailFinish (_mm_extract_epi64 (bulk_fold x y) 0)
              (_mm_extract_epi64 (bulk_fold x y) 1) (data.drop (len - len % 16)) (len % 16),
            block_log 0 (len / 16) ++ tail_log (len - len % 16) (len % 16)) := by
      unfold t1ha0_arm64aes_neon
      have hp : len > 32 := h
      simp only [rd_bind_def, if_pos hp, hb, rd_bind_some, ht]
      rfl
    refine ⟨x, y, _, _, hacc, hfold, hb, ?_, hrun, ?_⟩
    · rw [hrun, ht]
      rfl
    · intro h0
      rw [hrun, h0]
      simp [tailFinish, words64, mix_words, tail_log]

/-- C10 on three probes of the self-check corpus.  On the 64-byte test pattern with seed 0 the
folded accumulator has the lanes `0x9824E5573E5C5C20` and `0xCD3F3F29FAB8589D`, no byte is left
for the tail switch, and the digest is `final64` of the two lanes, the entry of index 2 of
`t1ha_refval_ia32aes_a`.  On the first 33 bytes with seed `2^32` the lanes are
`0xA737CD116BAAEDE9` and `0x7E7C342578C37957`, one byte at offset 32 is left, and the digest is
the scalar tail and finish of the lanes on it, the entry of index 35.  On the first 3 bytes with
seed 4 the digest is the scalar tail and finish of `(4, 3)`. -/
theorem neon_tail_is_scalar_witness :
    (∃ x y : M128,
      _mm_add_epi64 (_mm_aesdec_si128 x (_mm_aesenc_si128 y x)) y
        = ⟨0x9824E5573E5C5C20, 0xCD3F3F29FAB8589D⟩ ∧
      t1ha0_arm64aes_neon t1ha_test_pattern 64 0
        = some (final64 0x9824E5573E5C5C20 0xCD3F3F29FAB8589D, block_log 0 4) ∧
      final64 0x9824E5573E5C5C20 0xCD3F3F29FAB8589D = 0xB231AC660E5B23B5) ∧
    (∃ x y : M128,
      _mm_add_epi64 (_mm_aesdec_si128 x (_mm_aesenc_si128 y x)) y
        = ⟨0xA737CD116BAAEDE9, 0x7E7C342578C37957⟩ ∧
      t1ha0_arm64aes_neon (t1ha_test_pattern.take 33) 33 (2 ^ 32)
        = some (tailFinish 0xA737CD116BAAEDE9 0x7E7C342578C37957 ((t1ha_test_pattern.take 33).drop 32) 1,
            block_log 0 2 ++ tail_log 32 1) ∧
      tailFinish 0xA737CD116BAAEDE9 0x7E7C342578C37957 ((t1ha_test_pattern.take 33).drop 32) 1
        = 0xBB34C6A4396695D2) ∧
    t1ha0_arm64aes_neon (t1ha_test_pattern.take 3) 3 4
      = some (tailFinish 4 3 (t1ha_test_pattern.take 3) 3, tail_log 0 3) := by
  obtain ⟨x, y, lo, hi, _, hf, hb, _, _, h0⟩ :=
    (neon_tail_is_scalar t1ha_test_pattern 64 0 (by decide)).2 (by decide)
  have hc : bulk t1ha_test_pattern 64 0 64
      = some ((64, 0, 0x9824E5573E5C5C20, 0xCD3F3F29FAB8589D), block_log 0 4) := by decide!
  have he := (Prod.mk.inj (Prod.mk.inj (Prod.mk.inj (Option.some.inj (hb.symm.trans hc))).1).2).2
  obtain ⟨hlo, hhi⟩ := Prod.mk.inj he
  subst hlo hhi
  obtain ⟨x', y', lo', hi', _, hf', hb', _, hrun', _⟩ :=
    (neon_tail_is_scalar (t1ha_test_pattern.take 33) 33 (2 ^ 32) (by decide)).2 (by decide)
  have hc' : bulk (t1ha_test_pattern.take 33) 33 (2 ^ 32) 33
      = some ((32, 1, 0xA737CD116BAAEDE9, 0x7E7C342578C37957), block_log 0 2) := by decide!
  have he' :=
    (Prod.mk.inj (Prod.mk.inj (Prod.mk.inj (Option.some.inj (hb'.symm.trans hc'))).1).2).2
  obtain ⟨hlo', hhi'⟩ := Prod.mk.inj he'
  subst hlo' hhi'
  have hs := ((neon_tail_is_scalar (t1ha_test_pattern.take 3) 3 4 (by decide)).1 (by decide)).2
  exact ⟨⟨x, y, hf, h0 (by decide), by decide!⟩, ⟨x', y', hf', hrun', by decide!⟩, hs⟩

/-- C6: for every build configuration, every report of the detector and every combination of
per-variant results, `t1ha_selfcheck__t1ha0` returns 0 exactly when every self-check it called
returned 0; its result is the bitwise or of the results of the checks called; and which checks
are called does not depend on what any of them returns, so a failing check never hides a later
one. -/
theorem selfcheck_aggregate (cfg : Build) (features : Features) (check : Variant → Int) :
    ((t1ha_selfcheck__t1ha0 cfg features check).rc = 0 ↔
      ∀ v ∈ (t1ha_selfcheck__t1ha0 cfg features check).ran, check v = 0) ∧
    (t1ha_selfcheck__t1ha0 cfg features check).rc
      = ((t1ha_selfcheck__t1ha0 cfg features check).ran.map check).foldl Int.lor 0 ∧
    (∀ check' : Variant → Int, (t1ha_selfcheck__t1ha0 cfg features check').ran
      = (t1ha_selfcheck__t1ha0 cfg features check).ran) := by
  have hs := selfcheck_sound cfg features check
  refine ⟨?_, hs, ?_⟩
  · rw [hs, foldl_lor_eq_zero]
    simp
  · intro check'
    obtain ⟨w, d1, d2, ae, e2k, ne⟩ := cfg
    obtain ⟨f1, f2, f3⟩ := features
    cases w <;> cases d1 <;> cases d2 <;> cases ae <;> cases e2k <;> cases ne <;>
      cases f1 <;> cases f2 <;> cases f3 <;> rfl

/-- C11: the tail switch entered at offset `v` with `r ≤ 32` readable remaining bytes performs
no mix step for `r = 0` and `ceil(r / 8)` mix steps otherwise, one per little-endian 64-bit word
of the `r` bytes zero-padded to a multiple of 8 (one load per word, the last one of
`r - 8 * (ceil(r / 8) - 1)` bytes, a complete word when `r` is a multiple of 8).  The word that
is `j`-th from the end is mixed with `prime_j`, by `mixup64(&b, &a, ..)` for `j = 1, 3` and by
`mixup64(&a, &b, ..)` for `j = 2, 4`, and the digest is `final64` of the resulting pair. -/
theorem tail_switch_position_primes (data : List Nat) (v r a b : Nat) (hr : r ≤ 32)
    (h : v + r ≤ data.length) :
    (r = 0 → tail_switch data v r a b = some (final64 a b, [])) ∧
    (1 ≤ r → r ≤ 8 →
      tail_switch data v r a b
        = some (final64 (mix_ba (a, b) (tail_word data v r 0) prime_1).1
                  (mix_ba (a, b) (tail_word data v r 0) prime_1).2,
            [⟨v, r⟩])) ∧
    (9 ≤ r → r ≤ 16 →
      tail_switch data v r a b
        = some (final64
              (mix_ba (mix_ab (a, b) (tail_word data v r 0) prime_2)
                (tail_word data v r 1) prime_1).1
              (mix_ba (mix_ab (a, b) (tail_word data v r 0) prime_2)
                (tail_word data v r 1) prime_1).2,
            [⟨v, 8⟩, ⟨v + 8, r - 8⟩])) ∧
    (17 ≤ r → r ≤ 24 →
      tail_switch data v r a b
        = some (final64
              (mix_ba (mix_ab (mix_ba (a, b) (tail_word data v r 0) prime_3)
                (tail_word data v r 1) prime_2) (tail_word data v r 2) prime_1).1
              (mix_ba (mix_ab (mix_ba (a, b) (tail_word data v r 0) prime_3)
                (tail_word data v r 1) prime_2) (tail_word data v r 2) prime_1).2,
            [⟨v, 8⟩, ⟨v + 8, 8⟩, ⟨v + 16, r - 16⟩])) ∧
    (25 ≤ r → r ≤ 32 →
      tail_switch data v r a b
        = some (final64
              (mix_ba (mix_ab (mix_ba (mix_ab (a, b) (tail_word data v r 0) prime_4)
                (tail_word data v r 1) prime_3) (tail_word data v r 2) prime_2)
                (tail_word data v r 3) prime_1).1
              (mix_ba (mix_ab (mix_ba (mix_ab (a, b) (tail_word data v r 0) prime_4)
                (tail_word data v r 1) prime_3) (tail_word data v r 2) prime_2)
                (tail_word data v r 3) prime_1).2,
            [⟨v, 8⟩, ⟨v + 8, 8⟩, ⟨v + 16, 8⟩, ⟨v + 24, r - 24⟩])) := by
  have hs := tail_switch_spec data v r a b hr h
  have hb : ∀ n, (data.drop v).take n = bytes_at data v n := fun _ => rfl
  refine ⟨?_, ?_, ?_, ?_, ?_⟩
  · intro h0
    subst h0
    rw [hs]
    simp [tailFinish, words64, mix_words, tail_log]
  · intro h1 h2
    rw [hs]
    have e' : (r - 1) / 8 = 0 := by omega
    have e : (r - 1) % 8 + 1 = r := by omega
    have hw := words64_bytes_at_last data v r h (by omega) h2
    have t0 := tail_word_last data v r 0 h (by omega) (by omega)
    simp only [Nat.mul_zero, Nat.add_zero, Nat.sub_zero] at t0
    unfold tailFinish
    rw [hb, hw, t0]
    simp [mix_words, tail_prime, mix_ba, tail_log, e, e']
    rw [if_neg (show ¬ r = 0 by omega)]
  · intro h1 h2
    rw [hs]
    have e' : (r - 1) / 8 = 1 := by omega
    have e : (r - 1) % 8 + 1 = r - 8 := by omega
    have hw := words64_bytes_at data v r h (by omega)
    rw [words64_bytes_at_last data (v + 8) (r - 8) (by omega) (by omega) (by omega)] at hw
    have t0 := tail_word_full data v r 0 h (by omega)
    have t1 := tail_word_last data v r 1 h (by omega) (by omega)
    simp only [Nat.mul_zero, Nat.add_zero, Nat.mul_one] at t0 t1
    unfold tailFinish
    rw [hb, hw, t0, t1]
    simp [mix_words, tail_prime, mix_ba, mix_ab, tail_log, e, e', List.range_succ]
    rw [if_neg (show ¬ r = 0 by omega)]
  · intro h1 h2
    rw [hs]
    have e' : (r - 1) / 8 = 2 := by omega
    have e : (r - 1) % 8 + 1 = r - 16 := by omega
    have hw := words64_bytes_at data v r h (by omega)
    rw [words64_bytes_at data (v + 8) (r - 8) (by omega) (by omega),
      words64_bytes_at_last data (v + 8 + 8) (r - 8 - 8) (by omega) (by omega) (by omega)] at hw
    have t0 := tail_word_full data v r 0 h (by omega)
    have t1 := tail_word_full data v r 1 h (by omega)
    have t2 := tail_word_last data v r 2 h (by omega) (by omega)
    simp only [Nat.mul_zero, Nat.add_zero, Nat.mul_one] at t0 t1 t2
    have o2 : r - 8 - 8 = r - 8 * 2 := by omega
    have o3 : v + 8 + 8 = v + 8 * 2 := by omega
    unfold tailFinish
    rw [hb, hw, t0, t1, t2, o2, o3]
    simp [mix_words, tail_prime, mix_ba, mix_ab, tail_log, e, e', List.range_succ]
    rw [if_neg (show ¬ r = 0 by omega)]
  · intro h1 h2
    rw [hs]
    have e' : (r - 1) / 8 = 3 := by omega
    have e : (r - 1) % 8 + 1 = r - 24 := by omega
    have hw := words64_bytes_at data v r h (by omega)
    rw [words64_bytes_at data (v + 8) (r - 8) (by omega) (by omega),
      words64_bytes_at data (v + 8 + 8) (r - 8 - 8) (by omega) (by omega),
      words64_bytes_at_last data (v + 8 + 8 + 8) (r - 8 - 8 - 8) (by omega) (by omega)
        (by omega)] at hw
    have t0 := tail_word_full data v r 0 h (by omega)
    have t1 := tail_word_full data v r 1 h (by omega)
    have t2 := tail_word_full data v r 2 h (by omega)
    have t3 := tail_word_last data v r 3 h (by omega) (by omega)
    simp only [Nat.mul_zero, Nat.add_zero, Nat.mul_one] at t0 t1 t2 t3
    have o2 : v + 8 + 8 = v + 8 * 2 := by omega
    have o3 : r - 8 - 8 - 8 = r - 8 * 3 := by omega
    have o4 : v + 8 * 2 + 8 = v + 8 * 3 := by omega
    unfold tailFinish
    rw [hb, hw, t0, t1, t2, t3, o2, o3, o4]
    simp [mix_words, tail_prime, mix_ba, mix_ab, tail_log, e, e', List.range_succ]
    rw [if_neg (show ¬ r = 0 by omega)]

/-- C11 on the first 9 bytes of the test pattern: two mix steps, `prime_2` then `prime_1`. -/
theorem tail_switch_position_primes_witness :
    tail_switch t1ha_test_pattern 0 9 256 9
      = some (final64
            (mix_ba (mix_ab (256, 9) (tail_word t1ha_test_pattern 0 9 0) prime_2)
              (tail_word t1ha_test_pattern 0 9 1) prime_1).1
            (mix_ba (mix_ab (256, 9) (tail_word t1ha_test_pattern 0 9 0) prime_2)
              (tail_word t1ha_test_pattern 0 9 1) prime_1).2,
          [⟨0, 8⟩, ⟨0 + 8, 9 - 8⟩]) :=
  (tail_switch_position_primes t1ha_test_pattern 0 9 256 9 (by decide) (by decide)).2.2.1
    (by decide) (by decide)

/-- C12, as stated, fails: on the first 8 bytes of the test pattern with seed 128 (the probe of
index 10 of the corpus) the function calls the tail reader with the length argument 8.  The run
behind the contract `0 ≤ len ≤ 7` fails, the run behind the contract `len = 8` is the plain run,
and the plain run returns the reference digest. -/
theorem tail64_contract_broken_at_8 :
    t1ha0_arm64aes_neon_with (tail64_within 0 7) (t1ha_test_pattern.take 8) 8 128 = none ∧
    t1ha0_arm64aes_neon_with (tail64_within 8 8) (t1ha_test_pattern.take 8) 8 128
      = t1ha0_arm64aes_neon (t1ha_test_pattern.take 8) 8 128 ∧
    (t1ha0_arm64aes_neon (t1ha_test_pattern.take 8) 8 128).value = t1ha_refval_ia32aes_a[10]? ∧
    corpus[10]? = some ⟨t1ha_test_pattern.take 8, 8, 128⟩ ∧
    ¬ (∀ (data : List Nat) (len seed : Nat), len ≤ data.length →
        t1ha0_arm64aes_neon_with (tail64_within 0 7) data len seed
          = t1ha0_arm64aes_neon data len seed) := by
  have h1 : t1ha0_arm64aes_neon_with (tail64_within 0 7) (t1ha_test_pattern.take 8) 8 128
      = none := by decide!
  have h2 : t1ha0_arm64aes_neon_with (tail64_within 8 8) (t1ha_test_pattern.take 8) 8 128
      = t1ha0_arm64aes_neon (t1ha_test_pattern.take 8) 8 128 := by decide!
  have h3 : (t1ha0_arm64aes_neon (t1ha_test_pattern.take 8) 8 128).value
      = t1ha_refval_ia32aes_a[10]? := by decide!
  have h4 : corpus[10]? = some ⟨t1ha_test_pattern.take 8, 8, 128⟩ := by decide!
  refine ⟨h1, h2, h3, h4, ?_⟩
  intro hall
  have h := hall (t1ha_test_pattern.take 8) 8 128 (by decide)
  rw [h1] at h
  rw [← h] at h3
  exact absurd h3 (by decide)

/-- C12, amended: on a buffer with at least `len` readable bytes, `t1ha0_arm64aes_neon` calls
`tail64_le_unaligned` exactly when at least one byte enters the tail switch, and the length
argument it passes is the number of bytes that entered the switch, `tail_count len` (`len` for
`len ≤ 32`, `len & 15` after the wide-accumulator phase): behind any contract `lo..hi` the run is
the plain run when that number is 0 or inside the contract, and fails otherwise.  The number is
at most 32 (at most 15 after the wide-accumulator phase), so the contract `1 ≤ len ≤ 32` always
holds at the call site, and the contract `0 ≤ len ≤ 7` holds exactly when fewer than 8 bytes
enter the switch. -/
theorem tail64_argument_is_tail_count (data : List Nat) (len seed : Nat)
    (hlen : len ≤ data.length) :
    (t1ha0_arm64aes_neon data len seed).isSome = true ∧
    tail_count len ≤ 32 ∧ (32 < len → tail_count len ≤ 15) ∧
    (∀ lo hi,
      ((tail_count len = 0 ∨ (lo ≤ tail_count len ∧ tail_count len ≤ hi)) →
        t1ha0_arm64aes_neon_with (tail64_within lo hi) data len seed
          = t1ha0_arm64aes_neon data len seed) ∧
      ((1 ≤ tail_count len ∧ ¬ (lo ≤ tail_count len ∧ tail_count len ≤ hi)) →
        t1ha0_arm64aes_neon_with (tail64_within lo hi) data len seed = none)) ∧
    t1ha0_arm64aes_neon_with (tail64_within 1 32) data len seed
      = t1ha0_arm64aes_neon data len seed ∧
    (tail_count len ≤ 7 →
      t1ha0_arm64aes_neon_with (tail64_within 0 7) data len seed
        = t1ha0_arm64aes_neon data len seed) ∧
    (8 ≤ tail_count len →
      t1ha0_arm64aes_neon_with (tail64_within 0 7) data len seed = none) := by
  have hsome : (t1ha0_arm64aes_neon data len seed).isSome = true := by
    obtain ⟨hs, hb⟩ := neon_spec data len seed hlen
    by_cases h : len ≤ 32
    · rw [hs h]
      rfl
    · obtain ⟨lo, hi, _, hrun⟩ := hb (by omega)
      rw [hrun]
      rfl
  have hc32 : tail_count len ≤ 32 := by
    unfold tail_count
    split
    · rw [and_15]
      omega
    · omega
  have hc15 : 32 < len → tail_count len ≤ 15 := by
    intro h
    unfold tail_count
    rw [if_pos h, and_15]
    omega
  refine ⟨hsome, hc32, hc15, fun lo hi => neon_with_contract lo hi data len seed hlen, ?_, ?_, ?_⟩
  · apply (neon_with_contract 1 32 data len seed hlen).1
    by_cases h0 : tail_count len = 0
    · exact Or.inl h0
    · exact Or.inr ⟨by omega, hc32⟩
  · intro h
    exact (neon_with_contract 0 7 data len seed hlen).1 (Or.inr ⟨Nat.zero_le _, h⟩)
  · intro h
    exact (neon_with_contract 0 7 data len seed hlen).2 ⟨by omega, by omega⟩

/-- C12, amended, on the first 3 bytes of the test pattern: the argument 3 is inside `0..7`. -/
theorem tail64_argument_is_tail_count_witness :
    t1ha0_arm64aes_neon_with (tail64_within 0 7) (t1ha_test_pattern.take 3) 3 4
      = t1ha0_arm64aes_neon (t1ha_test_pattern.take 3) 3 4 :=
  (tail64_argument_is_tail_count (t1ha_test_pattern.take 3) 3 4 (by decide)).2.2.2.2.2.1
    (by decide)

set_option maxHeartbeats 1000000 in
/-- C13: in a build without `__e2k__`, whatever the detector reports, the aggregate calls the
AES-NI no-AVX check only if AES is reported, the AVX check only if AES and AVX are reported, the
AVX2 check only if AES, AVX and AVX2 are reported, and it calls the two 32-bit scalar checks in
every case; where the AES-NI variants are compiled in, "only if" is "if and only if". -/
theorem selfcheck_respects_detector (cfg : Build) (features : Features) (check : Variant → Int)
    (he2k : cfg.e2k = false) :
    (Variant.t1ha0_ia32aes_noavx ∈ (t1ha_selfcheck__t1ha0 cfg features check).ran →
      features.aesni = true) ∧
    (Variant.t1ha0_ia32aes_avx ∈ (t1ha_selfcheck__t1ha0 cfg features check).ran →
      features.aesni = true ∧ features.avx = true) ∧
    (Variant.t1ha0_ia32aes_avx2 ∈ (t1ha_selfcheck__t1ha0 cfg features check).ran →
      features.aesni = true ∧ features.avx = true ∧ features.avx2 = true) ∧
    Variant.t1ha0_32le ∈ (t1ha_selfcheck__t1ha0 cfg features check).ran ∧
    Variant.t1ha0_32be ∈ (t1ha_selfcheck__t1ha0 cfg features check).ran ∧
    (cfg.aesni_available = true →
      (Variant.t1ha0_ia32aes_noavx ∈ (t1ha_selfcheck__t1ha0 cfg features check).ran ↔
        features.aesni = true) ∧
      (Variant.t1ha0_ia32aes_avx ∈ (t1ha_selfcheck__t1ha0 cfg features check).ran ↔
        features.aesni = true ∧ features.avx = true) ∧
      (Variant.t1ha0_ia32aes_avx2 ∈ (t1ha_selfcheck__t1ha0 cfg features check).ran ↔
        features.aesni = true ∧ features.avx = true ∧ features.avx2 = true)) := by
  obtain ⟨w, d1, d2, ae, e2k, ne⟩ := cfg
  obtain ⟨f1, f2, f3⟩ := features
  simp only at he2k
  subst he2k
  cases w <;> cases d1 <;> cases d2 <;> cases ae <;> cases ne <;>
    cases f1 <;> cases f2 <;> cases f3 <;>
    simp [t1ha_selfcheck__t1ha0, Agg.call]

/-- C13 on an x86 build with AES-NI compiled in and a detector that reports AES only. -/
theorem selfcheck_respects_detector_witness :
    (t1ha_selfcheck__t1ha0 ⟨true, false, false, true, false, false⟩ ⟨true, false, false⟩
      (fun _ => 0)).ran
      = [Variant.t1ha0_32le, Variant.t1ha0_32be, Variant.t1ha1, Variant.t1ha0_ia32aes_noavx] ∧
    (Variant.t1ha0_ia32aes_avx ∈ (t1ha_selfcheck__t1ha0 ⟨true, false, false, true, false, false⟩
      ⟨true, false, false⟩ (fun _ => 0)).ran → (true = true ∧ false = true)) :=
  ⟨by decide, (selfcheck_respects_detector ⟨true, false, false, true, false, false⟩
    ⟨true, false, false⟩ (fun _ => 0) rfl).2.1⟩

/-! ## The reference corpus, evaluated -/

/-- The two S-box tables are inverse to each other. -/
theorem inv_sbox_sbox : ∀ b, b < 256 → INV_SBOX.getD (SBOX.getD b 0) 0 = b := by decide!

/-- The encryption round on the state and round key of FIPS-197, appendix B, round 1:
`193de3be a0f4e22b 9ac68d2a e9f84808` with key `a0fafe17 88542cb1 23a33939 2a6c7605` gives
`a49c7ff2 689f352b 6b5bea43 026a5049`. -/
theorem aesenc_fips197_round1 :
    _mm_aesenc_si128 ⟨0x2be2f4a0bee33d19, 0x0848f8e92a8dc69a⟩
        ⟨0xb12c548817fefaa0, 0x05766c2a3939a323⟩
      = ⟨0x2b359f68f27f9ca4, 0x49506a0243ea5b6b⟩ := by decide!

/-- The model of the absent `t1ha0_32le` reproduces every entry of the table the source keeps for
it: the self-check of lines 148-150 returns 0. -/
theorem t1ha0_32le_selfcheck_passes : t1ha_selfcheck__t1ha0_32le = 0 := by decide!

/-- The corpus has one probe per table entry. -/
theorem corpus_length : corpus.length = 81 := by decide!

/-- C1: every probe of the self-check corpus whose length is at most 32 is the probe the claim
lists for its index (index 0: empty buffer, seed 0; index 1: empty buffer, seed `2^64 - 1`;
index `2 + k` for `k = 1..32`: the first `k` bytes of the test pattern, seed `2^(k-1)`), and on it
`t1ha0_arm64aes_neon` returns the entry of `t1ha_refval_ia32aes_a` at that index; the entry at
index 0 is 0 and the entry at index 1 is `0x772C7311BE32FF42`. -/
theorem selfcheck_neon_short_probes (i : Nat) (p : Probe) (hp : corpus[i]? = some p)
    (hlen : p.len ≤ 32) :
    ((i = 0 ∧ p = ⟨[], 0, 0⟩) ∨ (i = 1 ∧ p = ⟨[], 0, 2 ^ 64 - 1⟩) ∨
      (3 ≤ i ∧ i ≤ 34 ∧ p = ⟨t1ha_test_pattern.take (i - 2), i - 2, 2 ^ (i - 2 - 1)⟩)) ∧
    (∃ r, t1ha_refval_ia32aes_a[i]? = some r ∧
      (t1ha0_arm64aes_neon p.buf p.len p.seed).value = some r) ∧
    t1ha_refval_ia32aes_a[0]? = some 0 ∧
    t1ha_refval_ia32aes_a[1]? = some 0x772C7311BE32FF42 := by
  have hi : i < 81 := by
    have h := (List.getElem?_eq_some.1 hp).1
    simpa [corpus_length] using h
  have key : ∀ j, j < 81 → (corpus.getD j ⟨[], 0, 0⟩).len ≤ 32 →
      ((j = 0 ∧ corpus.getD j ⟨[], 0, 0⟩ = ⟨[], 0, 0⟩) ∨
        (j = 1 ∧ corpus.getD j ⟨[], 0, 0⟩ = ⟨[], 0, 2 ^ 64 - 1⟩) ∨
        (3 ≤ j ∧ j ≤ 34 ∧ corpus.getD j ⟨[], 0, 0⟩
          = ⟨t1ha_test_pattern.take (j - 2), j - 2, 2 ^ (j - 2 - 1)⟩)) ∧
      (t1ha0_arm64aes_neon (corpus.getD j ⟨[], 0, 0⟩).buf (corpus.getD j ⟨[], 0, 0⟩).len
          (corpus.getD j ⟨[], 0, 0⟩).seed).value = t1ha_refval_ia32aes_a[j]? ∧
      (t1ha_refval_ia32aes_a[j]?).isSome = true := by
    decide!
  have hget : corpus.getD i ⟨[], 0, 0⟩ = p := by
    rw [List.getD_eq_getElem?_getD, hp]; rfl
  have h := key i hi (by rw [hget]; exact hlen)
  rw [hget] at h
  obtain ⟨h1, h2, h3⟩ := h
  obtain ⟨r, hr⟩ := Option.isSome_iff_exists.1 h3
  exact ⟨h1, ⟨r, hr, by rw [h2, hr]⟩, by decide, by decide⟩

/-- C1, at the probe of index 5: the first 3 bytes of the pattern with seed 4. -/
theorem selfcheck_neon_short_probes_witness :
    ∃ r, t1ha_refval_ia32aes_a[5]? = some r ∧
      (t1ha0_arm64aes_neon (t1ha_test_pattern.take 3) 3 4).value = some r :=
  (selfcheck_neon_short_probes 5 ⟨t1ha_test_pattern.take 3, 3, 4⟩ (by decide) (by decide)).2.1

set_option maxHeartbeats 4000000 in
/-- C2: every probe of the self-check corpus whose length exceeds 32 is the probe the claim lists
for its index (index 2: the whole pattern, seed 0; index `2 + k`, `k = 33..63`: the first `k`
bytes, seed `2^(k-1)`; index `65 + k`, `k = 1..7`: pattern bytes `k..63`, seed `(2^64 - 1) << k`;
index `73 + k`, `k = 0..7`: `128 + 17 * k` bytes at offset `k` of the ramp, seed
`0xFFFFFFFFFFFFFF80`), on it `t1ha0_arm64aes_neon` returns the entry of `t1ha_refval_ia32aes_a`
at that index, and `t1ha_selfcheck__t1ha0_aes_neon` returns 0. -/
theorem selfcheck_neon_bulk_probes (i : Nat) (p : Probe) (hp : corpus[i]? = some p)
    (hlen : 32 < p.len) :
    ((i = 2 ∧ p = ⟨t1ha_test_pattern, 64, 0⟩) ∨
      (35 ≤ i ∧ i ≤ 65 ∧ p = ⟨t1ha_test_pattern.take (i - 2), i - 2, 2 ^ (i - 2 - 1)⟩) ∨
      (66 ≤ i ∧ i ≤ 72 ∧ p = ⟨t1ha_test_pattern.drop (i - 65), 64 - (i - 65),
        ((2 ^ 64 - 1) <<< (i - 65)) % 2 ^ 64⟩) ∨
      (73 ≤ i ∧ i ≤ 80 ∧ p = ⟨(pattern_long.drop (i - 73)).take (128 + 17 * (i - 73)),
        128 + 17 * (i - 73), 0xFFFFFFFFFFFFFF80⟩)) ∧
    (∃ r, t1ha_refval_ia32aes_a[i]? = some r ∧
      (t1ha0_arm64aes_neon p.buf p.len p.seed).value = some r) ∧
    t1ha_selfcheck__t1ha0_aes_neon = 0 := by
  have hi : i < 81 := by
    have h := (List.getElem?_eq_some.1 hp).1
    simpa [corpus_length] using h
  have shape : ∀ j, j < 81 → 32 < (corpus.getD j ⟨[], 0, 0⟩).len →
      ((j = 2 ∧ corpus.getD j ⟨[], 0, 0⟩ = ⟨t1ha_test_pattern, 64, 0⟩) ∨
        (35 ≤ j ∧ j ≤ 65 ∧ corpus.getD j ⟨[], 0, 0⟩
          = ⟨t1ha_test_pattern.take (j - 2), j - 2, 2 ^ (j - 2 - 1)⟩) ∨
        (66 ≤ j ∧ j ≤ 72 ∧ corpus.getD j ⟨[], 0, 0⟩
          = ⟨t1ha_test_pattern.drop (j - 65), 64 - (j - 65),
              ((2 ^ 64 - 1) <<< (j - 65)) % 2 ^ 64⟩) ∨
        (73 ≤ j ∧ j ≤ 80 ∧ corpus.getD j ⟨[], 0, 0⟩
          = ⟨(pattern_long.drop (j - 73)).take (128 + 17 * (j - 73)),
              128 + 17 * (j - 73), 0xFFFFFFFFFFFFFF80⟩)) := by
    decide!
  have vals : ∀ j, j < 81 → 32 < (corpus.getD j ⟨[], 0, 0⟩).len →
      (t1ha0_arm64aes_neon (corpus.getD j ⟨[], 0, 0⟩).buf (corpus.getD j ⟨[], 0, 0⟩).len
          (corpus.getD j ⟨[], 0, 0⟩).seed).value = t1ha_refval_ia32aes_a[j]? ∧
      (t1ha_refval_ia32aes_a[j]?).isSome = true := by
    decide!
  have hget : corpus.getD i ⟨[], 0, 0⟩ = p := by
    rw [List.getD_eq_getElem?_getD, hp]; rfl
  have h1 := shape i hi (by rw [hget]; exact hlen)
  have h2 := vals i hi (by rw [hget]; exact hlen)
  rw [hget] at h1 h2
  obtain ⟨r, hr⟩ := Option.isSome_iff_exists.1 h2.2
  exact ⟨h1, ⟨r, hr, by rw [h2.1, hr]⟩, by decide!⟩

/-- C2, at the probe of index 2: the whole 64-byte pattern with seed 0. -/
theorem selfcheck_neon_bulk_probes_witness :
    ∃ r, t1ha_refval_ia32aes_a[2]? = some r ∧
      (t1ha0_arm64aes_neon t1ha_test_pattern 64 0).value = some r :=
  (selfcheck_neon_bulk_probes 2 ⟨t1ha_test_pattern, 64, 0⟩ (by decide) (by decide)).2.1

/-- C7: `t1ha0_32le` on the empty buffer with seed 0 is `t1ha_refval_32le[0] = 0`, and on the
probe of index 5 (the first 3 bytes of the test pattern, seed 4) it is
`t1ha_refval_32le[5] = 0x66CCE3BB6842C7D6`. -/
theorem t1ha0_32le_concrete_scenario :
    (t1ha0_32le [] 0 0).value = some 0 ∧ t1ha_refval_32le[0]? = some 0 ∧
    corpus[0]? = some ⟨[], 0, 0⟩ ∧
    corpus[5]? = some ⟨t1ha_test_pattern.take 3, 3, 4⟩ ∧
    (t1ha0_32le (t1ha_test_pattern.take 3) 3 4).value = some 0x66CCE3BB6842C7D6 ∧
    t1ha_refval_32le[5]? = some 0x66CCE3BB6842C7D6 := by
  decide!

/-- C8: each of the four reference tables lists exactly 81 values, its entry at index 0 is 0,
and every other entry is a non-zero 64-bit value. -/
theorem refval_tables_shape :
    ∀ t ∈ [t1ha_refval_32le, t1ha_refval_32be, t1ha_refval_ia32aes_a, t1ha_refval_ia32aes_b],
      t.length = 81 ∧ t[0]? = some 0 ∧
      (∀ i, 1 ≤ i → i < 81 → ∃ v, t[i]? = some v ∧ v ≠ 0) ∧
      (∀ v ∈ t, v < 2 ^ 64) := by
  have h : ∀ t ∈ [t1ha_refval_32le, t1ha_refval_32be, t1ha_refval_ia32aes_a,
      t1ha_refval_ia32aes_b],
      t.length = 81 ∧ t[0]? = some 0 ∧ (∀ v ∈ t.drop 1, v ≠ 0) ∧ (∀ v ∈ t, v < 2 ^ 64) := by
    decide!
  intro t ht
  obtain ⟨h1, h2, h3, h4⟩ := h t ht
  refine ⟨h1, h2, ?_, h4⟩
  intro i hi1 hi2
  have hlt : i < t.length := by omega
  refine ⟨t[i], List.getElem?_eq_getElem hlt, ?_⟩
  apply h3
  have hd : (t.drop 1)[i - 1]? = t[i]? := by
    rw [List.getElem?_drop]; congr 1; omega
  rw [List.getElem?_eq_getElem hlt] at hd
  exact List.getElem?_mem hd

/-- C8 at the table the NEON variant is checked against. -/
theorem refval_tables_shape_witness :
    t1ha_refval_ia32aes_a.length = 81 ∧ t1ha_refval_ia32aes_a[0]? = some 0 ∧
    (∀ i, 1 ≤ i → i < 81 → ∃ v, t1ha_refval_ia32aes_a[i]? = some v ∧ v ≠ 0) ∧
    (∀ v ∈ t1ha_refval_ia32aes_a, v < 2 ^ 64) :=
  refval_tables_shape t1ha_refval_ia32aes_a
    (List.Mem.tail _ (List.Mem.tail _ (List.Mem.head _)))

/-! ## The reference tables against each other -/

/-- C14: for every index `i` of the tables, `t1ha_refval_ia32aes_a[i] = t1ha_refval_ia32aes_b[i]`
exactly when `i` is 0, 1 or in `3..34`, and these are exactly the indices whose corpus probe has
a length of at most 32, the threshold `len > 32` of line 56. -/
theorem aes_tables_agree_on_short_probes (i : Nat) (hi : i < 81) :
    (t1ha_refval_ia32aes_a[i]? = t1ha_refval_ia32aes_b[i]? ↔
      (i = 0 ∨ i = 1 ∨ (3 ≤ i ∧ i ≤ 34))) ∧
    ((corpus.getD i ⟨[], 0, 0⟩).len ≤ 32 ↔ (i = 0 ∨ i = 1 ∨ (3 ≤ i ∧ i ≤ 34))) ∧
    (t1ha_refval_ia32aes_a[i]?).isSome = true ∧ (t1ha_refval_ia32aes_b[i]?).isSome = true ∧
    (corpus[i]?).isSome = true := by
  have key : ∀ j, j < 81 →
      (t1ha_refval_ia32aes_a[j]? = t1ha_refval_ia32aes_b[j]? ↔
        (j = 0 ∨ j = 1 ∨ (3 ≤ j ∧ j ≤ 34))) ∧
      ((corpus.getD j ⟨[], 0, 0⟩).len ≤ 32 ↔ (j = 0 ∨ j = 1 ∨ (3 ≤ j ∧ j ≤ 34))) ∧
      (t1ha_refval_ia32aes_a[j]?).isSome = true ∧ (t1ha_refval_ia32aes_b[j]?).isSome = true ∧
      (corpus[j]?).isSome = true := by
    decide!
  exact key i hi

/-- C14 at index 34 (the last short probe, 32 bytes) and at index 35 (33 bytes). -/
theorem aes_tables_agree_on_short_probes_witness :
    t1ha_refval_ia32aes_a[34]? = t1ha_refval_ia32aes_b[34]? ∧
    ¬ t1ha_refval_ia32aes_a[35]? = t1ha_refval_ia32aes_b[35]? :=
  ⟨(aes_tables_agree_on_short_probes 34 (by decide)).1.2 (by decide),
   fun h => absurd ((aes_tables_agree_on_short_probes 35 (by decide)).1.1 h) (by decide)⟩

/-- C15: for every index `i` of the tables, `t1ha_refval_32le[i] = t1ha_refval_32be[i]` exactly
when `i` is 0, 1 or 3, and these are exactly the indices whose corpus probe has fewer than 2
bytes; at every probe of at least 2 bytes the two tables differ. -/
theorem le_be_tables_distinct (i : Nat) (hi : i < 81) :
    (t1ha_refval_32le[i]? = t1ha_refval_32be[i]? ↔ (i = 0 ∨ i = 1 ∨ i = 3)) ∧
    ((corpus.getD i ⟨[], 0, 0⟩).len < 2 ↔ (i = 0 ∨ i = 1 ∨ i = 3)) ∧
    (2 ≤ (corpus.getD i ⟨[], 0, 0⟩).len → t1ha_refval_32le[i]? ≠ t1ha_refval_32be[i]?) ∧
    (t1ha_refval_32le[i]?).isSome = true ∧ (t1ha_refval_32be[i]?).isSome = true ∧
    (corpus[i]?).isSome = true := by
  have key : ∀ j, j < 81 →
      (t1ha_refval_32le[j]? = t1ha_refval_32be[j]? ↔ (j = 0 ∨ j = 1 ∨ j = 3)) ∧
      ((corpus.getD j ⟨[], 0, 0⟩).len < 2 ↔ (j = 0 ∨ j = 1 ∨ j = 3)) ∧
      (2 ≤ (corpus.getD j ⟨[], 0, 0⟩).len → t1ha_refval_32le[j]? ≠ t1ha_refval_32be[j]?) ∧
      (t1ha_refval_32le[j]?).isSome = true ∧ (t1ha_refval_32be[j]?).isSome = true ∧
      (corpus[j]?).isSome = true := by
    decide!
  exact key i hi

/-- C15 at index 3 (one byte) and at index 4 (two bytes). -/
theorem le_be_tables_distinct_witness :
    t1ha_refval_32le[3]? = t1ha_refval_32be[3]? ∧
    t1ha_refval_32le[4]? ≠ t1ha_refval_32be[4]? :=
  ⟨(le_be_tables_distinct 3 (by decide)).1.2 (by decide),
   (le_be_tables_distinct 4 (by decide)).2.2.1 (by decide)⟩

/-- C16: in each of the four reference tables the 81 entries are pairwise distinct, and so are
the 81 probes of the corpus: two different indices always carry different probes and different
reference digests.  In particular the empty buffer with seed 0 and with seed `2^64 - 1`
(indices 0 and 1), and every prefix of the pattern and the prefix one byte longer (indices
`2 + k` and `3 + k`, `k = 1..62`), have different digests. -/
theorem refval_tables_no_collision :
    t1ha_refval_32le.Nodup ∧ t1ha_refval_32be.Nodup ∧
    t1ha_refval_ia32aes_a.Nodup ∧ t1ha_refval_ia32aes_b.Nodup ∧ corpus.Nodup ∧
    (∀ t ∈ [t1ha_refval_32le, t1ha_refval_32be, t1ha_refval_ia32aes_a, t1ha_refval_ia32aes_b],
      ∀ i j, i < 81 → j < 81 → i ≠ j → t[i]? ≠ t[j]?) ∧
    (∀ t ∈ [t1ha_refval_32le, t1ha_refval_32be, t1ha_refval_ia32aes_a, t1ha_refval_ia32aes_b],
      t[0]? ≠ t[1]? ∧ ∀ k, 1 ≤ k → k ≤ 62 → t[2 + k]? ≠ t[3 + k]?) := by
  have h1 : t1ha_refval_32le.Nodup := by decide!
  have h2 : t1ha_refval_32be.Nodup := by decide!
  have h3 : t1ha_refval_ia32aes_a.Nodup := by decide!
  have h4 : t1ha_refval_ia32aes_b.Nodup := by decide!
  have h5 : corpus.Nodup := by decide!
  have hl : ∀ t ∈ [t1ha_refval_32le, t1ha_refval_32be, t1ha_refval_ia32aes_a,
      t1ha_refval_ia32aes_b], t.length = 81 ∧ t.Nodup := by
    intro t ht
    simp only [List.mem_cons, List.mem_singleton, List.not_mem_nil, or_false] at ht
    rcases ht with rfl | rfl | rfl | rfl
    · exact ⟨by decide, h1⟩
    · exact ⟨by decide, h2⟩
    · exact ⟨by decide, h3⟩
    · exact ⟨by decide, h4⟩
  have hne : ∀ t ∈ [t1ha_refval_32le, t1ha_refval_32be, t1ha_refval_ia32aes_a,
      t1ha_refval_ia32aes_b], ∀ i j, i < 81 → j < 81 → i ≠ j → t[i]? ≠ t[j]? := by
    intro t ht i j hi hj hij h
    obtain ⟨hlen, hnd⟩ := hl t ht
    have hi' : i < t.length := by omega
    have hj' : j < t.length := by omega
    rw [List.getElem?_eq_getElem hi', List.getElem?_eq_getElem hj'] at h
    exact hij ((List.Nodup.getElem_inj_iff hnd).1 (Option.some.inj h))
  refine ⟨h1, h2, h3, h4, h5, hne, ?_⟩
  intro t ht
  refine ⟨hne t ht 0 1 (by decide) (by decide) (by decide), ?_⟩
  intro k hk1 hk2
  exact hne t ht (2 + k) (3 + k) (by omega) (by omega) (by omega)

/-! ## The constants -/

end T1ha
